import Mathlib

/-!
# dukpy: value codec, callback trampoline and context lifecycle

A shallow embedding of `src/conversions.c` and `src/context.c`.

The Duktape engine and the CPython runtime are external to the repository.
Their API calls are embedded by their documented effects:

* a Duktape heap is a store of objects (index 0 is the heap stash) together
  with one value stack for each thread (`duk_context *`) of the heap;
* value stacks are unbounded lists, bottom first: a push never exhausts the
  stack, and allocation succeeds;
* a property key is kept as the value that was pushed as the key (the engine's
  string coercion of keys is not modelled; different pointers are different
  keys); a property write on an object does not throw;
* a host value is a finite tree; reference cycles between host containers
  are not represented;
* a C `double` is a dyadic rational, an infinity or NaN;
* addresses of wrappers and handles of threads are never reused.
-/

namespace DukPy

/-! ## C doubles -/

/-- A C `double`: `finite num exp` is the number `num / 2 ^ exp`. -/
inductive Double where
  | finite (num : Int) (exp : Nat)
  | inf (neg : Bool)
  | nan
deriving DecidableEq, Repr

/-- C library `modf(x, &ip) == 0`: the fractional part of `x` compares equal to
zero. The fractional part of an infinity is a zero; that of NaN is NaN, which
compares unequal to everything. -/
def modf_is_zero : Double → Bool
  | .finite num exp => decide (num.tmod (2 ^ exp) = 0)
  | .inf _ => true
  | .nan => false

/-- Python exceptions raised on the paths embedded here. -/
inductive PyErr where
  | TypeError (msg : String)
  | OverflowError
  | ValueError
  | UnicodeError
  | RuntimeError (fmt : String) (arg : List Nat)
  | MemoryError
  | notSet
deriving DecidableEq, Repr

/-- CPython `PyLong_FromDouble`: the integral part of a finite double; an
infinity raises OverflowError and NaN raises ValueError. -/
def PyLong_FromDouble : Double → Except PyErr Int
  | .finite num exp => .ok (num.tdiv (2 ^ exp))
  | .inf _ => .error .OverflowError
  | .nan => .error .ValueError

/-- Number of halvings that bring `n` below `2 ^ 53` (at most `fuel`). -/
def shiftFor : Nat → Nat → Nat
  | 0, _ => 0
  | fuel + 1, n => if n < 2 ^ 53 then 0 else shiftFor fuel (n / 2) + 1

/-- The magnitude `n` rounded to 53 significant bits, ties to even. -/
def round53 (n : Nat) : Nat :=
  let s := shiftFor n n
  let q := n / 2 ^ s
  let r := n % 2 ^ s
  let q1 := if 2 ^ s < 2 * r ∨ (2 * r = 2 ^ s ∧ q % 2 = 1) then q + 1 else q
  q1 * 2 ^ s

/-- The least magnitude beyond the finite doubles, `2 ^ 1024`. -/
def DBL_LIMIT : Nat := 2 ^ 256 * 2 ^ 256 * 2 ^ 256 * 2 ^ 256

/-- CPython `PyLong_AsDouble`: the nearest double of an integer; `none` when
the integer is too large for a double (OverflowError is raised). -/
def PyLong_AsDouble (v : Int) : Option Double :=
  let m := round53 v.natAbs
  if DBL_LIMIT ≤ m then none
  else some (.finite (if v < 0 then -(m : Int) else (m : Int)) 0)

/-! ## UTF-8 (CPython `PyUnicode_AsUTF8String`, `PyUnicode_DecodeUTF8`) -/

/-- UTF-8 bytes of one code point; `none` for a surrogate or a value that is
no code point (the strict encoder raises). -/
def utf8EncodeChar (c : Nat) : Option (List Nat) :=
  if c < 0x80 then some [c]
  else if c < 0x800 then some [0xC0 + c / 64, 0x80 + c % 64]
  else if c < 0x10000 then
    if 0xD800 ≤ c ∧ c < 0xE000 then none
    else some [0xE0 + c / 4096, 0x80 + c / 64 % 64, 0x80 + c % 64]
  else if c < 0x110000 then
    some [0xF0 + c / 262144, 0x80 + c / 4096 % 64, 0x80 + c / 64 % 64, 0x80 + c % 64]
  else none

/-- UTF-8 bytes of a text; `none` when some code point cannot be encoded. -/
def utf8Encode : List Nat → Option (List Nat)
  | [] => some []
  | c :: cs =>
    match utf8EncodeChar c, utf8Encode cs with
    | some bs, some rest => some (bs ++ rest)
    | _, _ => none

/-- A UTF-8 continuation byte. -/
def isCont (b : Nat) : Bool := decide (0x80 ≤ b ∧ b < 0xC0)

/-- Strict UTF-8 decoding of the first code point of a byte sequence: the code
point and the bytes after it; `none` on an invalid sequence (overlong forms,
surrogates and values above 0x10FFFF are rejected). -/
def utf8DecodeOne : List Nat → Option (Nat × List Nat)
  | [] => none
  | b0 :: rest =>
    if b0 < 0x80 then some (b0, rest)
    else if 0xC2 ≤ b0 ∧ b0 < 0xE0 then
      match rest with
      | b1 :: rest1 =>
        if isCont b1 then some ((b0 - 0xC0) * 64 + (b1 - 0x80), rest1) else none
      | _ => none
    else if 0xE0 ≤ b0 ∧ b0 < 0xF0 then
      match rest with
      | b1 :: b2 :: rest2 =>
        let c := (b0 - 0xE0) * 4096 + (b1 - 0x80) * 64 + (b2 - 0x80)
        if isCont b1 ∧ isCont b2 ∧ 0x800 ≤ c ∧ ¬ (0xD800 ≤ c ∧ c < 0xE000) then
          some (c, rest2)
        else none
      | _ => none
    else if 0xF0 ≤ b0 ∧ b0 < 0xF5 then
      match rest with
      | b1 :: b2 :: b3 :: rest3 =>
        let c := (b0 - 0xF0) * 262144 + (b1 - 0x80) * 4096 + (b2 - 0x80) * 64 + (b3 - 0x80)
        if isCont b1 ∧ isCont b2 ∧ isCont b3 ∧ 0x10000 ≤ c ∧ c < 0x110000 then
          some (c, rest3)
        else none
      | _ => none
    else none

/-- Decoding loop; the first argument bounds the number of code points. -/
def utf8DecodeAux : Nat → List Nat → Option (List Nat)
  | _, [] => some []
  | 0, _ :: _ => none
  | fuel + 1, b :: bs =>
    match utf8DecodeOne (b :: bs) with
    | none => none
    | some (c, rest) => (utf8DecodeAux fuel rest).map (fun cs => c :: cs)

/-- Strict UTF-8 decoding of a byte sequence into code points; `none` on an
invalid sequence. A sequence of `n` bytes holds at most `n` code points. -/
def utf8Decode (bytes : List Nat) : Option (List Nat) :=
  utf8DecodeAux bytes.length bytes

/-! ## Engine values and the heap -/

/-- Modelled from the spec: the type objects of the three proxy kinds, which
are declared outside `src/` ("generic object, array, function proxies", "the
three proxy-object types"). `DukObject_Type` is the one `python_to_duk`
names. -/
inductive ProxyType where
  | DukObject_Type
  | DukArray_Type
  | DukFunction_Type
deriving DecidableEq, Repr

/-- A `void *` held by the engine: it points at a thread (`duk_context *`), at a
Context wrapper (`DukContext *`), at a host callable or at a proxy object. -/
inductive HostPtr where
  | null
  | thread (t : Nat)
  | context (addr : Nat)
  | callable (f : Nat)
  | proxy (ty : ProxyType) (ref : Nat)
deriving DecidableEq, Repr

/-- A tagged engine value (`duk_tval`). Strings are byte sequences; objects
and buffers are references into the heap. -/
inductive DukValue where
  | undefined
  | null
  | boolean (b : Bool)
  | number (d : Double)
  | string (bytes : List Nat)
  | object (ref : Nat)
  | buffer (ref : Nat)
  | pointer (p : HostPtr)
deriving DecidableEq, Repr

/-- Class of a heap object. A native function records that it was created by
`duk_push_c_function(ctx, python_function_caller, DUK_VARARGS)`; a thread
records its global object. -/
inductive ObjClass where
  | plain
  | array
  | ecmaFunction
  | cFunction
  | thread (global : Nat)
deriving DecidableEq, Repr

/-- A heap object: its class and its own properties, in insertion order. A
property key is kept as the key value that was pushed. -/
structure HObject where
  cls : ObjClass
  props : List (DukValue × DukValue)
deriving DecidableEq, Repr

/-- A Duktape heap: the object store (index 0 is the heap stash), the value
stack of each thread, the running function of each thread, and whether
`duk_destroy_heap` has been run. -/
structure duk_heap where
  objs : List HObject
  valstack : Nat → List DukValue
  curfunc : Nat → DukValue
  destroyed : Bool

/-- Property read on an association list. -/
def propGet (k : DukValue) : List (DukValue × DukValue) → Option DukValue
  | [] => none
  | (k1, v1) :: rest => if k1 = k then some v1 else propGet k rest

/-- Property write: replaces the value of an existing key, else appends. -/
def propSet (k v : DukValue) : List (DukValue × DukValue) → List (DukValue × DukValue)
  | [] => [(k, v)]
  | (k1, v1) :: rest => if k1 = k then (k1, v) :: rest else (k1, v1) :: propSet k v rest

/-- Property delete. -/
def propDel (k : DukValue) : List (DukValue × DukValue) → List (DukValue × DukValue)
  | [] => []
  | (k1, v1) :: rest => if k1 = k then propDel k rest else (k1, v1) :: propDel k rest

/-- Replace the value stack of thread `ctx`. -/
def setStack (ctx : Nat) (s : List DukValue) (H : duk_heap) : duk_heap :=
  { H with valstack := fun t => if t = ctx then s else H.valstack t }

/-- Value of `duk_get_top`. -/
def duk_get_top (ctx : Nat) (H : duk_heap) : Nat := (H.valstack ctx).length

/-- The value at a stack index (negative indices count from the top); `none`
for an invalid index. -/
def duk_get_tval (ctx : Nat) (index : Int) (H : duk_heap) : Option DukValue :=
  let top : Int := (H.valstack ctx).length
  if 0 ≤ index then
    if index < top then (H.valstack ctx)[index.toNat]? else none
  else
    if -index ≤ top then (H.valstack ctx)[(top + index).toNat]? else none

/-- Value of `duk_normalize_index`: the non-negative form of a valid index,
`none` for `DUK_INVALID_INDEX`. -/
def duk_normalize_index (ctx : Nat) (index : Int) (H : duk_heap) : Option Nat :=
  let top : Int := (H.valstack ctx).length
  if 0 ≤ index then
    if index < top then some index.toNat else none
  else
    if -index ≤ top then some (top + index).toNat else none

/-- Push one value on the stack of `ctx`. -/
def duk_push (ctx : Nat) (v : DukValue) (H : duk_heap) : duk_heap :=
  setStack ctx (H.valstack ctx ++ [v]) H

def duk_push_undefined (ctx : Nat) (H : duk_heap) : duk_heap := duk_push ctx .undefined H

def duk_push_null (ctx : Nat) (H : duk_heap) : duk_heap := duk_push ctx .null H

def duk_push_true (ctx : Nat) (H : duk_heap) : duk_heap := duk_push ctx (.boolean true) H

def duk_push_false (ctx : Nat) (H : duk_heap) : duk_heap := duk_push ctx (.boolean false) H

def duk_push_number (ctx : Nat) (d : Double) (H : duk_heap) : duk_heap :=
  duk_push ctx (.number d) H

def duk_push_lstring (ctx : Nat) (bytes : List Nat) (H : duk_heap) : duk_heap :=
  duk_push ctx (.string bytes) H

def duk_push_pointer (ctx : Nat) (p : HostPtr) (H : duk_heap) : duk_heap :=
  duk_push ctx (.pointer p) H

/-- Pop `n` values. -/
def duk_pop_n (ctx : Nat) (n : Nat) (H : duk_heap) : duk_heap :=
  setStack ctx ((H.valstack ctx).take ((H.valstack ctx).length - n)) H

def duk_pop (ctx : Nat) (H : duk_heap) : duk_heap := duk_pop_n ctx 1 H

/-- Push a copy of the value at `index` (`undefined` stands in for an invalid
index, where the engine throws). -/
def duk_dup (ctx : Nat) (index : Int) (H : duk_heap) : duk_heap :=
  duk_push ctx ((duk_get_tval ctx index H).getD .undefined) H

/-- Allocate a heap object and push a reference to it. -/
def pushNewObject (ctx : Nat) (cls : ObjClass) (H : duk_heap) : duk_heap :=
  duk_push ctx (.object H.objs.length) { H with objs := H.objs ++ [⟨cls, []⟩] }

def duk_push_object (ctx : Nat) (H : duk_heap) : duk_heap := pushNewObject ctx .plain H

def duk_push_array (ctx : Nat) (H : duk_heap) : duk_heap := pushNewObject ctx .array H

/-- Pushes a native function whose C entry point is
`python_function_caller`. -/
def duk_push_c_function (ctx : Nat) (H : duk_heap) : duk_heap :=
  pushNewObject ctx .cFunction H

def duk_push_heap_stash (ctx : Nat) (H : duk_heap) : duk_heap := duk_push ctx (.object 0) H

/-- Pushes the global object of thread `ctx`. -/
def duk_push_global_object (ctx : Nat) (H : duk_heap) : duk_heap :=
  match H.objs[ctx]? with
  | some ⟨.thread g, _⟩ => duk_push ctx (.object g) H
  | _ => duk_push ctx .undefined H

def duk_push_current_function (ctx : Nat) (H : duk_heap) : duk_heap :=
  duk_push ctx (H.curfunc ctx) H

/-- Allocates a fresh global object and a new thread that uses it, and pushes
the thread object. The new thread has an empty value stack. -/
def duk_push_thread_new_globalenv (ctx : Nat) (H : duk_heap) : duk_heap :=
  let g := H.objs.length
  let t := g + 1
  duk_push ctx (.object t)
    (setStack t [] { H with objs := H.objs ++ [⟨.plain, []⟩, ⟨.thread g, []⟩] })

/-- Value of `duk_get_context`: the thread handle of the thread object at
`index` (0, the null handle of this model, when there is none). -/
def duk_get_context (ctx : Nat) (index : Int) (H : duk_heap) : Nat :=
  match duk_get_tval ctx index H with
  | some (.object t) => t
  | _ => 0

/-- Store `key ↦ val` in the object that `target` refers to. -/
def storeProp (target : Option DukValue) (key val : DukValue) (H : duk_heap) : duk_heap :=
  match target with
  | some (.object r) =>
    match H.objs[r]? with
    | some o => { H with objs := H.objs.set r { o with props := propSet key val o.props } }
    | none => H
  | _ => H

/-- Remove `key` from the object that `target` refers to. -/
def removeProp (target : Option DukValue) (key : DukValue) (H : duk_heap) : duk_heap :=
  match target with
  | some (.object r) =>
    match H.objs[r]? with
    | some o => { H with objs := H.objs.set r { o with props := propDel key o.props } }
    | none => H
  | _ => H

/-- Read `key` of the object that `target` refers to; `undefined` when the
property is absent. -/
def loadProp (target : Option DukValue) (key : DukValue) (H : duk_heap) : DukValue :=
  match target with
  | some (.object r) =>
    match H.objs[r]? with
    | some o => (propGet key o.props).getD .undefined
    | none => .undefined
  | _ => .undefined

/-- Stack effect `[ ... obj ... key val ] -> [ ... obj ... ]`. -/
def duk_put_prop (ctx : Nat) (obj_index : Int) (H : duk_heap) : duk_heap :=
  let target := duk_get_tval ctx obj_index H
  let key := (duk_get_tval ctx (-2) H).getD .undefined
  let val := (duk_get_tval ctx (-1) H).getD .undefined
  duk_pop_n ctx 2 (storeProp target key val H)

/-- Stack effect `[ ... obj ... val ] -> [ ... obj ... ]`. -/
def duk_put_prop_string (ctx : Nat) (obj_index : Int) (key : List Nat) (H : duk_heap) :
    duk_heap :=
  let target := duk_get_tval ctx obj_index H
  let val := (duk_get_tval ctx (-1) H).getD .undefined
  duk_pop_n ctx 1 (storeProp target (.string key) val H)

/-- Stack effect `[ ... obj ... val ] -> [ ... obj ... ]`, key an array
index. -/
def duk_put_prop_index (ctx : Nat) (obj_index : Int) (arr_index : Nat) (H : duk_heap) :
    duk_heap :=
  let target := duk_get_tval ctx obj_index H
  let val := (duk_get_tval ctx (-1) H).getD .undefined
  duk_pop_n ctx 1 (storeProp target (.number (.finite arr_index 0)) val H)

/-- Stack effect `[ ... obj ... key ] -> [ ... obj ... val ]`. -/
def duk_get_prop (ctx : Nat) (obj_index : Int) (H : duk_heap) : duk_heap :=
  let target := duk_get_tval ctx obj_index H
  let key := (duk_get_tval ctx (-1) H).getD .undefined
  duk_push ctx (loadProp target key H) (duk_pop_n ctx 1 H)

/-- Stack effect `[ ... obj ... ] -> [ ... obj ... val ]`. -/
def duk_get_prop_string (ctx : Nat) (obj_index : Int) (key : List Nat) (H : duk_heap) :
    duk_heap :=
  duk_push ctx (loadProp (duk_get_tval ctx obj_index H) (.string key) H) H

/-- Stack effect `[ ... obj ... key ] -> [ ... obj ... ]`. -/
def duk_del_prop (ctx : Nat) (obj_index : Int) (H : duk_heap) : duk_heap :=
  let target := duk_get_tval ctx obj_index H
  let key := (duk_get_tval ctx (-1) H).getD .undefined
  duk_pop_n ctx 1 (removeProp target key H)

/-- Value of `duk_get_pointer`: the pointer at `index`, NULL when the value
there is not a pointer. -/
def duk_get_pointer (ctx : Nat) (index : Int) (H : duk_heap) : HostPtr :=
  match duk_get_tval ctx index H with
  | some (.pointer p) => p
  | _ => .null

/-- Class of the object at a stack slot, if the slot holds an object. -/
def objClassAt (v : Option DukValue) (H : duk_heap) : Option ObjClass :=
  match v with
  | some (.object r) => (H.objs[r]?).map (fun o => o.cls)
  | _ => none

/-- The hidden property key `"\xff" "py_func"`. -/
def py_func_key : List Nat := [0xFF, 112, 121, 95, 102, 117, 110, 99]

/-- The stash key `"heap"`. -/
def heap_key : List Nat := [104, 101, 97, 112]

/-! ## Host values -/

/-- A host (Python) value. `undefined` is the singleton `Duk_undefined`;
`bool` is `Py_True` / `Py_False`; a text is its sequence of code points;
`callable f` is a host callable with identity `f`; `proxy ty ref` is a proxy
object of type `ty` for the engine object `ref`; `other` is an object of any
other type (a tuple, a bytes object, ...). -/
inductive PyObject where
  | undefined
  | none
  | bool (b : Bool)
  | int (n : Int)
  | float (d : Double)
  | str (cps : List Nat)
  | dict (items : List (PyObject × PyObject))
  | list (items : List PyObject)
  | callable (f : Nat)
  | proxy (ty : ProxyType) (ref : Nat)
  | other (id : Nat)

/-- Modelled from the spec: `PyCallable_Check` on a proxy. The type objects are
declared outside `src/`; of the three proxy kinds only the function proxy
supports `call(args...)`. -/
def proxyCallable : ProxyType → Bool
  | .DukFunction_Type => true
  | _ => false

/-- Modelled from the spec: `DukObject_push`, defined outside `src/`. "Encoding a
proxy must push the original underlying value, not a copy": one value is
pushed, the reference to the proxied engine object. -/
def DukObject_push (ref : Nat) (ctx : Nat) (H : duk_heap) : duk_heap :=
  duk_push ctx (.object ref) H

/-- Modelled from the spec: `DukObject_from_ctx`, `DukArray_from_ctx` and
`DukFunction_from_ctx`, defined outside `src/`. A proxy of the given type is
created for the engine object at the slot, "without copying it"; the engine
stack is restored. -/
def proxy_from_ctx (ty : ProxyType) (v : DukValue) : PyObject :=
  match v with
  | .object ref => .proxy ty ref
  | _ => .proxy ty 0

/-- A code point the UTF-8 encoder accepts: a Unicode scalar value. -/
def isScalar (c : Nat) : Prop := c < 0x110000 ∧ ¬ (0xD800 ≤ c ∧ c < 0xE000)

/-- The primitive host values whose encoding decodes to themselves: the
singletons, the integers a double holds exactly (53 significant bits, below
`2 ^ 1024`), and the texts made of scalar values. -/
def RoundTrips : PyObject → Prop
  | .undefined => True
  | .none => True
  | .bool _ => True
  | .int n => round53 n.natAbs = n.natAbs ∧ n.natAbs < DBL_LIMIT
  | .str cps => ∀ c ∈ cps, isScalar c
  | _ => False

/-! ## conversions.c -/

mutual
/-- Embedding of `python_to_duk` (Python 3 build). Returns the C return value
(0 or -1) and the heap afterwards. -/
def python_to_duk (ctx : Nat) : PyObject → duk_heap → Int × duk_heap
  | .undefined, H => (0, duk_push_undefined ctx H)
  | .none, H => (0, duk_push_null ctx H)
  | .bool true, H => (0, duk_push_true ctx H)
  | .bool false, H => (0, duk_push_false ctx H)
  | .proxy ty ref, H =>
    if ty = .DukObject_Type then (0, DukObject_push ref ctx H)
    -- not a str, int, float, dict or list: the chain reaches PyCallable_Check
    else if proxyCallable ty then
      (0, duk_put_prop_string ctx (-2) py_func_key
            (duk_push_pointer ctx (.proxy ty ref) (duk_push_c_function ctx H)))
    else (-1, H)
  | .str cps, H =>
    match utf8Encode cps with
    | Option.none => (-1, H)
    | some bytes => (0, duk_push_lstring ctx bytes H)
  | .int n, H =>
    match PyLong_AsDouble n with
    | Option.none => (-1, H)
    | some val => (0, duk_push_number ctx val H)
  | .float d, H => (0, duk_push_number ctx d H)
  | .dict items, H => python_to_duk_dict ctx items (duk_push_object ctx H)
  | .list items, H => python_to_duk_list ctx items 0 (duk_push_array ctx H)
  | .callable f, H =>
    (0, duk_put_prop_string ctx (-2) py_func_key
          (duk_push_pointer ctx (.callable f) (duk_push_c_function ctx H)))
  | .other _, H => (-1, H)
/-- The `while (PyDict_Next(...))` loop of `python_to_duk`. -/
def python_to_duk_dict (ctx : Nat) : List (PyObject × PyObject) → duk_heap → Int × duk_heap
  | [], H => (0, H)
  | (key, val) :: rest, H =>
    let rk := python_to_duk ctx key H
    if rk.1 = -1 then (-1, duk_pop ctx rk.2)
    else
      let rv := python_to_duk ctx val rk.2
      if rv.1 = -1 then (-1, duk_pop_n ctx 2 rv.2)
      else python_to_duk_dict ctx rest (duk_put_prop ctx (-3) rv.2)
/-- The `for (i = 0; i < len; i++)` loop of `python_to_duk`, from index `i`. -/
def python_to_duk_list (ctx : Nat) : List PyObject → Nat → duk_heap → Int × duk_heap
  | [], _, H => (0, H)
  | val :: rest, i, H =>
    let rv := python_to_duk ctx val H
    if rv.1 = -1 then (-1, duk_pop ctx rv.2)
    else python_to_duk_list ctx rest (i + 1) (duk_put_prop_index ctx (-2) i rv.2)
end

/-- Embedding of `duk_to_python`: the host value or the exception raised, and
the heap afterwards. -/
def duk_to_python (ctx : Nat) (index : Int) (H : duk_heap) : Except PyErr PyObject × duk_heap :=
  match duk_normalize_index ctx index H with
  | Option.none => (.error .notSet, H)
  | some index_n =>
    match duk_get_tval ctx index_n H with
    | some .undefined => (.ok .undefined, H)
    | some .null => (.ok .none, H)
    | some (.boolean b) => (.ok (.bool b), H)
    | some (.number number) =>
      if modf_is_zero number then
        ((PyLong_FromDouble number).map PyObject.int, H)
      else (.ok (.float number), H)
    | some (.string _) =>
      let H1 := duk_dup ctx index_n H
      let result : Except PyErr PyObject :=
        match duk_get_tval ctx (-1) H1 with
        | some (.string str) =>
          match utf8Decode str with
          | some cps => .ok (.str cps)
          | Option.none => .error .UnicodeError
        | _ => .error .UnicodeError
      (result, duk_pop ctx H1)
    | some (.object ref) =>
      match objClassAt (some (.object ref)) H with
      | some .array => (.ok (proxy_from_ctx .DukArray_Type (.object ref)), H)
      | some .ecmaFunction => (.ok (proxy_from_ctx .DukFunction_Type (.object ref)), H)
      | some .cFunction => (.ok (proxy_from_ctx .DukFunction_Type (.object ref)), H)
      | _ => (.ok (proxy_from_ctx .DukObject_Type (.object ref)), H)
    | some (.buffer _) => (.error (.TypeError "'buffer' is not coercible"), H)
    | some (.pointer _) => (.error (.TypeError "'pointer' is not coercible"), H)
    | Option.none => (.error .notSet, H)

/-- The host side of a call: `PyObject_Call(func, args, NULL)` on the callable
behind a pointer; `none` when the callable raises. -/
structure HostEnv where
  call : HostPtr → List PyObject → Option PyObject

/-- How a native function leaves: it returns a code to the engine, or it
throws with `duk_error` and does not return. -/
inductive NativeExit where
  | returned (rc : Int) (H : duk_heap)
  | thrown (msg : String) (H : duk_heap)

/-- Value of `DUK_RET_TYPE_ERROR` (Duktape 1.x `duktape.h`); any negative
return code makes the engine throw. -/
def DUK_RET_TYPE_ERROR : Int := -105

/-- The loop `for (i = 0; i < nargs; i++)` of `python_function_caller`: decodes
the slots `i, i+1, ...` (`n` of them); `none` as soon as one fails. -/
def decode_args (ctx : Nat) : Nat → Nat → duk_heap → Option (List PyObject) × duk_heap
  | 0, _, H => (some [], H)
  | n + 1, i, H =>
    match duk_to_python ctx i H with
    | (.error _, H1) => (Option.none, H1)
    | (.ok arg, H1) =>
      match decode_args ctx n (i + 1) H1 with
      | (some args, H2) => (some (arg :: args), H2)
      | (Option.none, H2) => (Option.none, H2)

/-- Embedding of `python_function_caller`, the trampoline. `PyTuple_New`
succeeds; the host callable does not touch the engine while it runs. -/
def python_function_caller (env : HostEnv) (ctx : Nat) (H : duk_heap) : NativeExit :=
  let nargs := duk_get_top ctx H
  let H1 := duk_push_current_function ctx H
  let H2 := duk_get_prop_string ctx (-1) py_func_key H1
  let func := duk_get_pointer ctx (-1) H2
  match decode_args ctx nargs 0 H2 with
  | (Option.none, H3) => .returned DUK_RET_TYPE_ERROR H3
  | (some args, H3) =>
    match env.call func args with
    | Option.none => .thrown "Function call failed" H3
    | some result => .returned 1 (python_to_duk ctx result H3).2

/-- What the caller of a native function receives. -/
inductive CallOutcome where
  | value (v : DukValue)
  | error
deriving DecidableEq, Repr

/-- Duktape's treatment of a native function's exit: return code 1 hands back
the value on the stack top, 0 hands back `undefined`, anything else and a
throw are an error. -/
def native_call_outcome (ctx : Nat) : NativeExit → CallOutcome
  | .returned rc H =>
    if rc = 1 then .value ((duk_get_tval ctx (-1) H).getD .undefined)
    else if rc = 0 then .value .undefined
    else .error
  | .thrown _ _ => .error

/-- The frame the trampoline has built when it calls the host: the running
function and the value of its `py_func` property above the arguments. -/
def trampoline_frame (ctx : Nat) (H : duk_heap) : duk_heap :=
  duk_get_prop_string ctx (-1) py_func_key (duk_push_current_function ctx H)

/-! ## context.c -/

/-- The script engine as a black box: running a source text in a thread gives
a result value or an error value and the heap afterwards, with the value stack
of the thread as it was; `render` is the text `duk_safe_to_string` gives. -/
structure Engine where
  run : Nat → List Nat → duk_heap → Except DukValue DukValue × duk_heap
  render : DukValue → List Nat
  run_stack : ∀ ctx code H, (run ctx code H).2.valstack ctx = H.valstack ctx

/-- `duk_peval_string`: `[ ... ] -> [ ... result ]` with 0, or
`[ ... ] -> [ ... err ]` with a non-zero code. -/
def duk_peval_string (E : Engine) (ctx : Nat) (code : List Nat) (H : duk_heap) :
    Int × duk_heap :=
  match E.run ctx code H with
  | (.ok v, H1) => (0, duk_push ctx v H1)
  | (.error e, H1) => (1, duk_push ctx e H1)

/-- `duk_safe_to_string(ctx, -1)`: the top value is replaced by its text. -/
def duk_safe_to_string (E : Engine) (ctx : Nat) (H : duk_heap) : List Nat × duk_heap :=
  let s := E.render ((duk_get_tval ctx (-1) H).getD .undefined)
  (s, duk_push ctx (.string s) (duk_pop ctx H))

/-- Embedding of `DukContext_eval` on the thread `ctx` of the Context, after
the arguments `code` and `noreturn` have been parsed. -/
def DukContext_eval (E : Engine) (ctx : Nat) (code : List Nat) (noresult : Bool)
    (H : duk_heap) : Except PyErr PyObject × duk_heap :=
  let r := duk_peval_string E ctx code H
  if r.1 ≠ 0 then
    let m := duk_safe_to_string E ctx r.2
    (.error (.RuntimeError "Failed to evaluate code: %s" m.1), m.2)
  else if noresult then
    (.ok .none, duk_pop ctx r.2)
  else
    let result := duk_to_python ctx (-1) r.2
    (result.1, duk_pop ctx result.2)

/-- Embedding of `DukContext_get`: the wrapper pointer cached for the handle
`ctx`, NULL on a miss, and the heap afterwards. -/
def DukContext_get (ctx : Nat) (H : duk_heap) : HostPtr × duk_heap :=
  let H1 := duk_push_heap_stash ctx H
  let H2 := duk_push_pointer ctx (.thread ctx) H1
  let H3 := duk_get_prop ctx (-2) H2
  let context := duk_get_pointer ctx (-1) H3
  (context, duk_pop_n ctx 2 H3)

/-- An engine handle (`duk_context *`): a thread of one of the heaps. -/
structure Handle where
  heap : Nat
  thread : Nat
deriving DecidableEq, Repr

/-- The `DukContext` struct with its object header. `freed` records that
`tp_free` has run; `hostRefs` counts the references host code holds (it is
bookkeeping of the model, not a field of the struct). -/
structure DukContext where
  ob_refcnt : Nat
  heap_manager : Option Nat
  ctx : Handle
  global : Option PyObject
  freed : Bool
  hostRefs : Nat

/-- Everything the lifecycle code touches: the heaps created so far (`nheaps`
of them) and the Context wrappers allocated so far (`nobjects` of them; the
address of a wrapper is its index). -/
structure World where
  heaps : Nat → duk_heap
  nheaps : Nat
  objects : Nat → DukContext
  nobjects : Nat

/-- Run an engine operation on heap `h`. -/
def World.onHeap (W : World) (h : Nat) (f : duk_heap → duk_heap) : World :=
  { W with heaps := fun i => if i = h then f (W.heaps i) else W.heaps i }

/-- Update the wrapper at address `a`. -/
def World.onObject (W : World) (a : Nat) (f : DukContext → DukContext) : World :=
  { W with objects := fun i => if i = a then f (W.objects i) else W.objects i }

/-- `duk_create_heap_default`: a heap holding the stash (0), the global object
(1) and the main thread (2), whose handle is returned. Allocation succeeds. -/
def duk_create_heap_default : duk_heap :=
  { objs := [⟨.plain, []⟩, ⟨.plain, []⟩, ⟨.thread 1, []⟩]
    valstack := fun _ => []
    curfunc := fun _ => .undefined
    destroyed := false }

/-- `duk_destroy_heap`: every object, thread and stack of the heap is freed. -/
def duk_destroy_heap (_H : duk_heap) : duk_heap :=
  { objs := []
    valstack := fun _ => []
    curfunc := fun _ => .undefined
    destroyed := true }

/-- `PyObject_New(DukContext, &DukContext_Type)`: a wrapper with reference
count 1 and unset fields. -/
def PyObject_New : DukContext :=
  { ob_refcnt := 1, heap_manager := Option.none, ctx := ⟨0, 0⟩, global := Option.none,
    freed := false, hostRefs := 0 }

/-- Allocate a wrapper and hand its one reference to the caller; its address is
the old number of wrappers. -/
def World.allocContext (W : World) : World :=
  { W with
    objects := fun i => if i = W.nobjects then { PyObject_New with hostRefs := 1 }
      else W.objects i
    nobjects := W.nobjects + 1 }

/-- Modelled from the spec: `DukObject_from_DukContext`, defined outside `src/`:
"materialize and cache a proxy for the global object". The proxy refers to the
object at the slot; the Identity Map and the stack are left as they are. -/
def DukObject_from_DukContext (ctx : Nat) (index : Int) (H : duk_heap) : PyObject :=
  proxy_from_ctx .DukObject_Type ((duk_get_tval ctx index H).getD .undefined)

/-- The engine part of `DukContext_init_internal` for the wrapper at address
`self` with handle `ctx`: `heap_stash[(void *)self->ctx] = (void *)self`, then
the global object is pushed and popped. -/
def init_internal_heap (self : Nat) (ctx : Nat) (H : duk_heap) : duk_heap :=
  let H1 := duk_push_heap_stash ctx H
  let H2 := duk_push_pointer ctx (.thread ctx) H1
  let H3 := duk_push_pointer ctx (.context self) H2
  let H4 := duk_put_prop ctx (-3) H3
  let H5 := duk_pop ctx H4
  let H6 := duk_push_global_object ctx H5
  duk_pop ctx H6

/-- The proxy `DukContext_init_internal` stores in `self->global`. -/
def init_internal_global (self : Nat) (ctx : Nat) (H : duk_heap) : PyObject :=
  let H1 := duk_push_heap_stash ctx H
  let H2 := duk_push_pointer ctx (.thread ctx) H1
  let H3 := duk_push_pointer ctx (.context self) H2
  let H4 := duk_put_prop ctx (-3) H3
  let H5 := duk_pop ctx H4
  let H6 := duk_push_global_object ctx H5
  DukObject_from_DukContext ctx (-1) H6

/-- Embedding of `DukContext_init_internal`. -/
def DukContext_init_internal (self : Nat) (W : World) : World :=
  let o := W.objects self
  let H := W.heaps o.ctx.heap
  (W.onHeap o.ctx.heap (init_internal_heap self o.ctx.thread)).onObject self
    (fun o1 => { o1 with global := some (init_internal_global self o.ctx.thread H) })

/-- The heap `DukContext_init` prepares before `DukContext_init_internal`:
a fresh heap with `heap_stash.heap = (void *)self`. -/
def init_heap (self : Nat) : duk_heap :=
  let ctx := 2
  let H1 := duk_push_heap_stash ctx duk_create_heap_default
  let H2 := duk_push_pointer ctx (.context self) H1
  let H3 := duk_put_prop_string ctx (-2) heap_key H2
  duk_pop ctx H3

/-- Embedding of `DukContext_init` for the wrapper at address `self`: a heap is
created (its index is the old number of heaps, its main thread is 2),
`heap_stash.heap = (void *)self` is stored, then `DukContext_init_internal`
runs. -/
def DukContext_init (self : Nat) (W : World) : World :=
  let h := W.nheaps
  let W1 : World :=
    { W with
      heaps := fun i => if i = h then init_heap self else W.heaps i
      nheaps := W.nheaps + 1 }
  let W2 := W1.onObject self (fun o => { o with heap_manager := Option.none, ctx := ⟨h, 2⟩ })
  DukContext_init_internal self W2

/-- The host call `Context()`: a wrapper is allocated and initialised, and the
caller holds the one reference to it. -/
def createContext (W : World) : World :=
  DukContext_init W.nobjects W.allocContext

/-- `Py_INCREF`. -/
def Py_INCREF (p : Nat) (W : World) : World :=
  W.onObject p (fun o => { o with ob_refcnt := o.ob_refcnt + 1 })

/-- The engine part of `DukContext_new_global_env` on the handle `ctx` of
`self`, for the new wrapper at address `new_context`. -/
def new_global_env_heap (new_context : Nat) (ctx : Nat) (H : duk_heap) : duk_heap :=
  let H1 := duk_push_heap_stash ctx H
  let H2 := duk_push_pointer ctx (.context new_context) H1
  let H3 := duk_push_thread_new_globalenv ctx H2
  let H4 := duk_put_prop ctx (-3) H3
  duk_pop ctx H4

/-- The handle `duk_get_context(self->ctx, -1)` that `DukContext_new_global_env`
stores in `new_context->ctx`. -/
def new_global_env_handle (new_context : Nat) (ctx : Nat) (H : duk_heap) : Nat :=
  let H1 := duk_push_heap_stash ctx H
  let H2 := duk_push_pointer ctx (.context new_context) H1
  let H3 := duk_push_thread_new_globalenv ctx H2
  duk_get_context ctx (-1) H3

/-- Embedding of `DukContext_new_global_env` called on the wrapper at address
`self`; the caller receives the one reference to the new wrapper, whose address
is the old number of wrappers. -/
def DukContext_new_global_env (self : Nat) (W : World) : World :=
  let s := W.objects self
  let H := W.heaps s.ctx.heap
  let new_context := W.nobjects
  let W1 := W.allocContext
  let W2 := W1.onObject new_context (fun o =>
    { o with heap_manager := some (s.heap_manager.getD self) })
  let W3 := Py_INCREF self W2
  let W4 := W3.onObject new_context (fun o =>
    { o with ctx := ⟨s.ctx.heap, new_global_env_handle new_context s.ctx.thread H⟩ })
  let W5 := W4.onHeap s.ctx.heap (new_global_env_heap new_context s.ctx.thread)
  DukContext_init_internal new_context W5

/-- The engine part of the derived branch of `DukContext_dealloc`, run on the
heap manager's handle `ctx`: both stash entries of `self` are deleted. -/
def dealloc_heap (self : Nat) (self_ctx : Nat) (ctx : Nat) (H : duk_heap) : duk_heap :=
  let H1 := duk_push_heap_stash ctx H
  let H2 := duk_push_pointer ctx (.thread self_ctx) H1
  let H3 := duk_del_prop ctx (-2) H2
  let H4 := duk_push_pointer ctx (.context self) H3
  let H5 := duk_del_prop ctx (-2) H4
  duk_pop ctx H5

mutual
/-- `Py_DECREF`: the count drops by one and, at zero, `tp_dealloc` runs. The
first argument bounds the nesting of deallocations. -/
def Py_DECREF : Nat → Nat → World → World
  | 0, _, W => W
  | fuel + 1, p, W =>
    let o := W.objects p
    let W1 := W.onObject p (fun o1 => { o1 with ob_refcnt := o.ob_refcnt - 1 })
    if o.ob_refcnt - 1 = 0 then DukContext_dealloc fuel p W1 else W1
/-- Embedding of `DukContext_dealloc` for the wrapper at address `self`. -/
def DukContext_dealloc : Nat → Nat → World → World
  | 0, _, W => W
  | fuel + 1, self, W =>
    let o := W.objects self
    let W2 :=
      match o.heap_manager with
      | Option.none => W.onHeap o.ctx.heap duk_destroy_heap
      | some m =>
        let mgr := W.objects m
        let W1 := W.onHeap mgr.ctx.heap (dealloc_heap self o.ctx.thread mgr.ctx.thread)
        Py_DECREF fuel m W1
    W2.onObject self (fun o1 => { o1 with freed := true })
end

/-- Host code drops one of the references it holds on the wrapper at `a`. The
nesting of deallocations is at most two deep (a derived Context, then its
root). -/
def hostRelease (a : Nat) (W : World) : World :=
  let o := W.objects a
  if o.hostRefs = 0 then W
  else Py_DECREF 4 a (W.onObject a (fun o1 => { o1 with hostRefs := o.hostRefs - 1 }))

/-- The world before any Context is created. -/
def World.empty : World :=
  { heaps := fun _ => duk_destroy_heap duk_create_heap_default
    nheaps := 0
    objects := fun _ => PyObject_New
    nobjects := 0 }

/-- `DukContext_get` applied to an engine handle. On a handle whose heap has
been destroyed the C code reads freed memory; the model reads the emptied heap,
which holds no stash, and so reports a miss. -/
def World.lookup (W : World) (h : Handle) : HostPtr × duk_heap :=
  DukContext_get h.thread (W.heaps h.heap)

/-- The worlds host code can reach: it creates root Contexts, derives Contexts
from existing wrappers and drops references. -/
inductive Reachable : World → Prop where
  | empty : Reachable World.empty
  | create (W : World) : Reachable W → Reachable (createContext W)
  | derive (W : World) (a : Nat) : Reachable W → a < W.nobjects →
      Reachable (DukContext_new_global_env a W)
  | release (W : World) (a : Nat) : Reachable W → a < W.nobjects →
      Reachable (hostRelease a W)

/-- The heap stash (Identity Map) of a heap, when the heap has one. -/
def stashOf (H : duk_heap) : Option (List (DukValue × DukValue)) :=
  (H.objs[0]?).map (fun o => o.props)

/-- The stash entry of the wrapper at `a`, as long as its heap exists: its
handle is a thread of the heap, and the stash maps the handle to the wrapper
exactly while the wrapper is neither freed nor in teardown (`pend`). -/
def GoodWrapper (pend : Nat → Prop) (W : World) (a : Nat) : Prop :=
  (W.heaps (W.objects a).ctx.heap).destroyed = false →
    (W.objects a).ctx.thread < (W.heaps (W.objects a).ctx.heap).objs.length ∧
    ∃ st, stashOf (W.heaps (W.objects a).ctx.heap) = some st ∧
      ((W.objects a).freed = false ∧ ¬ pend a →
        propGet (.pointer (.thread (W.objects a).ctx.thread)) st =
          some (.pointer (.context a))) ∧
      ((W.objects a).freed = true ∨ pend a →
        propGet (.pointer (.thread (W.objects a).ctx.thread)) st = Option.none)

/-- The invariant of the lifecycle: every wrapper lives on a created heap, its
stash entry is good, and a heap manager is a root wrapper on the same heap. -/
structure WorldInv (pend : Nat → Prop) (W : World) : Prop where
  heap_lt : ∀ a, a < W.nobjects → (W.objects a).ctx.heap < W.nheaps
  good : ∀ a, a < W.nobjects → GoodWrapper pend W a
  manager : ∀ a, a < W.nobjects → ∀ m, (W.objects a).heap_manager = some m →
    m < W.nobjects ∧ (W.objects m).ctx.heap = (W.objects a).ctx.heap ∧
      (W.objects m).heap_manager = Option.none

/-- For each wrapper: reference count, heap manager, whether it was freed, and
the number of references host code holds. -/
def World.wrappers (W : World) : List (Nat × Option Nat × Bool × Nat) :=
  (List.range W.nobjects).map (fun a =>
    ((W.objects a).ob_refcnt, (W.objects a).heap_manager, (W.objects a).freed,
      (W.objects a).hostRefs))

/-- For each heap: whether `duk_destroy_heap` has been run on it. -/
def World.heapsDestroyed (W : World) : List Bool :=
  (List.range W.nheaps).map (fun h => (W.heaps h).destroyed)

/-- The heap stash (Identity Map) of heap `h`. -/
def World.stash (W : World) (h : Nat) : Option (List (DukValue × DukValue)) :=
  stashOf (W.heaps h)

/-! ## Sample inputs -/

/-- An engine that raises the error value `"oops"` on every source text. -/
def raisingEngine : Engine :=
  { run := fun _ _ H => (.error (.string [111, 111, 112, 115]), H)
    render := fun v => match v with
      | .string s => s
      | _ => []
    run_stack := fun _ _ _ => rfl }

/-- A host in which every callable returns a value of a type `python_to_duk`
does not convert (a tuple, say). -/
def tupleEnv : HostEnv := { call := fun _ _ => some (.other 0) }

/-- The heap at the entry of the trampoline made for the host callable 7, called
by a script with the one argument 21. -/
def callEntry : duk_heap :=
  { (python_to_duk 2 (.callable 7) duk_create_heap_default).2 with
    valstack := fun _ => [.number (.finite 21 0)]
    curfunc := fun _ => .object 3 }

/-- `R = Context()`: the root wrapper is at address 0, its heap is heap 0. -/
def worldRoot : World := createContext World.empty

/-- `D1 = R.new_global_env()`: the derived wrapper is at address 1. -/
def worldD1 : World := DukContext_new_global_env 0 worldRoot

/-- `D2 = D1.new_global_env()`: the wrapper derived from a derived one is at
address 2. -/
def worldD2 : World := DukContext_new_global_env 1 worldD1

/-- `del D2`. -/
def worldD2Released : World := hostRelease 2 worldD2

/-- `del R`, after `del D2`. -/
def worldRootReleased : World := hostRelease 0 worldD2Released

/-- `del R` right after `D1 = R.new_global_env()`: the root stays alive through
the reference `D1` holds. -/
def worldRootKept : World := hostRelease 0 worldD1

/-- `D = D1.new_global_env()` in `worldRootKept`; `D` is at address 2. -/
def worldRootKeptD : World := DukContext_new_global_env 1 worldRootKept

/-- `del D` in `worldRootKeptD`. -/
def worldRootKeptDReleased : World := hostRelease 2 worldRootKeptD

/-- `D = R.new_global_env()` then `del D`, on a root that stays referenced. -/
def worldDerivedFromRootReleased : World := hostRelease 1 worldD1

/-! ## Stack lemmas -/

@[simp] theorem valstack_setStack_same (ctx : Nat) (s : List DukValue) (H : duk_heap) :
    (setStack ctx s H).valstack ctx = s := by
  simp [setStack]

theorem valstack_setStack_other (ctx t : Nat) (s : List DukValue) (H : duk_heap)
    (h : t ≠ ctx) : (setStack ctx s H).valstack t = H.valstack t := by
  simp [setStack, h]

@[simp] theorem objs_setStack (ctx : Nat) (s : List DukValue) (H : duk_heap) :
    (setStack ctx s H).objs = H.objs := rfl

theorem setStack_setStack (ctx : Nat) (s s1 : List DukValue) (H : duk_heap) :
    setStack ctx s (setStack ctx s1 H) = setStack ctx s H := by
  unfold setStack
  congr 1
  funext t
  by_cases h : t = ctx <;> simp [h]

theorem setStack_self (ctx : Nat) (H : duk_heap) : setStack ctx (H.valstack ctx) H = H := by
  unfold setStack
  cases H with
  | mk objs valstack curfunc destroyed =>
    simp only [duk_heap.mk.injEq, true_and, and_true]
    funext t
    by_cases h : t = ctx <;> simp [h]

@[simp] theorem valstack_duk_push (ctx : Nat) (v : DukValue) (H : duk_heap) :
    (duk_push ctx v H).valstack ctx = H.valstack ctx ++ [v] := by
  simp [duk_push]

@[simp] theorem objs_duk_push (ctx : Nat) (v : DukValue) (H : duk_heap) :
    (duk_push ctx v H).objs = H.objs := rfl

@[simp] theorem valstack_duk_pop_n (ctx n : Nat) (H : duk_heap) :
    (duk_pop_n ctx n H).valstack ctx = (H.valstack ctx).take ((H.valstack ctx).length - n) := by
  simp [duk_pop_n]

@[simp] theorem objs_duk_pop_n (ctx n : Nat) (H : duk_heap) :
    (duk_pop_n ctx n H).objs = H.objs := rfl

theorem duk_pop_duk_push (ctx : Nat) (v : DukValue) (H : duk_heap) :
    duk_pop ctx (duk_push ctx v H) = H := by
  unfold duk_pop duk_pop_n duk_push
  rw [setStack_setStack]
  simp [setStack_self]

/-- The top slot after a push is the pushed value. -/
theorem duk_get_tval_top (ctx : Nat) (v : DukValue) (H : duk_heap) :
    duk_get_tval ctx (-1) (duk_push ctx v H) = some v := by
  unfold duk_get_tval
  simp only [valstack_duk_push, List.length_append, List.length_singleton]
  have h1 : ¬ (0 : Int) ≤ -1 := by omega
  have h2 : - (-1 : Int) ≤ ((H.valstack ctx).length + 1 : Nat) := by omega
  simp only [h1, h2, if_false, if_true]
  have h3 : (((H.valstack ctx).length + 1 : Nat) + (-1 : Int)).toNat = (H.valstack ctx).length := by
    omega
  rw [h3]
  simp

/-- A valid index normalises to a non-negative index of the same slot. -/
theorem normalize_of_valid (ctx : Nat) (index : Int) (H : duk_heap) (v : DukValue)
    (h : duk_get_tval ctx index H = some v) :
    ∃ n : Nat, duk_normalize_index ctx index H = some n ∧
      duk_get_tval ctx (n : Int) H = some v := by
  unfold duk_get_tval at h
  unfold duk_normalize_index
  by_cases h0 : 0 ≤ index
  · simp only [h0, if_true] at h ⊢
    by_cases h1 : index < ((H.valstack ctx).length : Int)
    · simp only [h1, if_true] at h ⊢
      refine ⟨index.toNat, rfl, ?_⟩
      unfold duk_get_tval
      have h2 : (0 : Int) ≤ (index.toNat : Int) := by omega
      have h3 : (index.toNat : Int) < ((H.valstack ctx).length : Int) := by omega
      simp only [h2, h3, if_true, Int.toNat_ofNat]
      exact h
    · simp [h1] at h
  · simp only [h0, if_false] at h ⊢
    by_cases h1 : -index ≤ ((H.valstack ctx).length : Int)
    · simp only [h1, if_true] at h ⊢
      refine ⟨(((H.valstack ctx).length : Int) + index).toNat, rfl, ?_⟩
      unfold duk_get_tval
      have h2 : (0 : Int) ≤ (((((H.valstack ctx).length : Int) + index).toNat : Nat) : Int) := by
        omega
      have h3 : (((((H.valstack ctx).length : Int) + index).toNat : Nat) : Int)
          < ((H.valstack ctx).length : Int) := by omega
      simp only [h2, h3, if_true, Int.toNat_ofNat]
      exact h
    · simp [h1] at h

/-! ## Decoding -/

/-- C10. For every engine stack and every valid index that holds a buffer or a
raw pointer, `duk_to_python` returns no host value, raises the "not coercible"
TypeError of that kind, and leaves the heap, so the stack depth and contents,
unchanged. -/
theorem duk_to_python_buffer_pointer_fails (ctx : Nat) (index : Int) (H : duk_heap)
    (v : DukValue) (hidx : duk_get_tval ctx index H = some v)
    (hv : (∃ r, v = .buffer r) ∨ (∃ p, v = .pointer p)) :
    duk_to_python ctx index H =
        (.error (.TypeError (match v with
          | .buffer _ => "'buffer' is not coercible"
          | _ => "'pointer' is not coercible")), H) ∧
    (duk_to_python ctx index H).2.valstack ctx = H.valstack ctx ∧
    duk_get_top ctx (duk_to_python ctx index H).2 = duk_get_top ctx H := by
  obtain ⟨n, hn, hval⟩ := normalize_of_valid ctx index H v hidx
  rcases hv with ⟨r, rfl⟩ | ⟨p, rfl⟩
  · have h : duk_to_python ctx index H =
        (.error (.TypeError "'buffer' is not coercible"), H) := by
      simp [duk_to_python, hn, hval]
    exact ⟨h, by rw [h], by rw [h]⟩
  · have h : duk_to_python ctx index H =
        (.error (.TypeError "'pointer' is not coercible"), H) := by
      simp [duk_to_python, hn, hval]
    exact ⟨h, by rw [h], by rw [h]⟩

/-- C10 at a concrete stack: a pointer in slot 0 below a number. -/
theorem duk_to_python_buffer_pointer_fails_witness :
    duk_to_python 2 0
        (duk_push 2 (.number (.finite 1 0))
          (duk_push 2 (.pointer (.callable 7)) duk_create_heap_default)) =
        (.error (.TypeError "'pointer' is not coercible"),
          duk_push 2 (.number (.finite 1 0))
            (duk_push 2 (.pointer (.callable 7)) duk_create_heap_default)) ∧
    (duk_to_python 2 0
        (duk_push 2 (.number (.finite 1 0))
          (duk_push 2 (.pointer (.callable 7)) duk_create_heap_default))).2.valstack 2 =
      (duk_push 2 (.number (.finite 1 0))
          (duk_push 2 (.pointer (.callable 7)) duk_create_heap_default)).valstack 2 ∧
    duk_get_top 2 (duk_to_python 2 0
        (duk_push 2 (.number (.finite 1 0))
          (duk_push 2 (.pointer (.callable 7)) duk_create_heap_default))).2 =
      duk_get_top 2 (duk_push 2 (.number (.finite 1 0))
          (duk_push 2 (.pointer (.callable 7)) duk_create_heap_default)) :=
  duk_to_python_buffer_pointer_fails 2 0 _ (.pointer (.callable 7)) (by decide)
    (Or.inr ⟨_, rfl⟩)

/-! ## UTF-8 round trip -/

theorem utf8DecodeOne_encodeChar (c : Nat) (bs rest : List Nat)
    (h : utf8EncodeChar c = some bs) :
    utf8DecodeOne (bs ++ rest) = some (c, rest) ∧ 0 < bs.length := by
  unfold utf8EncodeChar at h
  split_ifs at h with h1 h2 h3 h4 h5
  · cases h
    simp [utf8DecodeOne, h1]
  · cases h
    have a1 : ¬ (0xC0 + c / 64 < 0x80) := by omega
    have a2 : 0xC2 ≤ 0xC0 + c / 64 ∧ 0xC0 + c / 64 < 0xE0 := by omega
    have a3 : isCont (0x80 + c % 64) = true := by simp [isCont]; omega
    have a4 : (0xC0 + c / 64 - 0xC0) * 64 + (0x80 + c % 64 - 0x80) = c := by omega
    simp only [List.cons_append, List.nil_append, utf8DecodeOne, a1, a2, a3, a4, if_false,
      if_true, and_self, List.length_cons, Nat.zero_lt_succ]
  · cases h
    have a1 : ¬ (0xE0 + c / 4096 < 0x80) := by omega
    have a2 : ¬ (0xC2 ≤ 0xE0 + c / 4096 ∧ 0xE0 + c / 4096 < 0xE0) := by omega
    have a3 : 0xE0 ≤ 0xE0 + c / 4096 ∧ 0xE0 + c / 4096 < 0xF0 := by omega
    have a4 : isCont (0x80 + c / 64 % 64) = true := by simp [isCont]; omega
    have a5 : isCont (0x80 + c % 64) = true := by simp [isCont]; omega
    have a6 : (0xE0 + c / 4096 - 0xE0) * 4096 + (0x80 + c / 64 % 64 - 0x80) * 64
        + (0x80 + c % 64 - 0x80) = c := by omega
    have a7 : 0x800 ≤ c := by omega
    simp only [List.cons_append, List.nil_append, utf8DecodeOne, a1, a2, a3, a4, a5, a6, a7, h4,
      if_false, if_true, and_self, not_false_eq_true, List.length_cons, Nat.zero_lt_succ]
  · cases h
    have a1 : ¬ (0xF0 + c / 262144 < 0x80) := by omega
    have a2 : ¬ (0xC2 ≤ 0xF0 + c / 262144 ∧ 0xF0 + c / 262144 < 0xE0) := by omega
    have a3 : ¬ (0xE0 ≤ 0xF0 + c / 262144 ∧ 0xF0 + c / 262144 < 0xF0) := by omega
    have a3' : 0xF0 ≤ 0xF0 + c / 262144 ∧ 0xF0 + c / 262144 < 0xF5 := by omega
    have a4 : isCont (0x80 + c / 4096 % 64) = true := by simp [isCont]; omega
    have a5 : isCont (0x80 + c / 64 % 64) = true := by simp [isCont]; omega
    have a5' : isCont (0x80 + c % 64) = true := by simp [isCont]; omega
    have a6 : (0xF0 + c / 262144 - 0xF0) * 262144 + (0x80 + c / 4096 % 64 - 0x80) * 4096
        + (0x80 + c / 64 % 64 - 0x80) * 64 + (0x80 + c % 64 - 0x80) = c := by omega
    have a7 : 0x10000 ≤ c := by omega
    simp only [List.cons_append, List.nil_append, utf8DecodeOne, a1, a2, a3, a3', a4, a5, a5',
      a6, a7, h5, if_false, if_true, and_self, not_false_eq_true, List.length_cons,
      Nat.zero_lt_succ]

theorem utf8DecodeAux_utf8Encode (cps : List Nat) :
    ∀ (bytes : List Nat) (fuel : Nat), utf8Encode cps = some bytes → bytes.length ≤ fuel →
      utf8DecodeAux fuel bytes = some cps := by
  induction cps with
  | nil =>
    intro bytes fuel h _
    rw [utf8Encode] at h
    cases h
    cases fuel <;> rfl
  | cons c cs ih =>
    intro bytes fuel h hfuel
    rw [utf8Encode] at h
    cases hc : utf8EncodeChar c with
    | none => rw [hc] at h; cases h
    | some bs =>
      cases hr : utf8Encode cs with
      | none => rw [hc, hr] at h; cases h
      | some rest =>
        rw [hc, hr] at h
        cases h
        obtain ⟨hone, hpos⟩ := utf8DecodeOne_encodeChar c bs rest hc
        rw [List.length_append] at hfuel
        cases fuel with
        | zero => omega
        | succ f =>
          cases hbs : bs ++ rest with
          | nil =>
            have hlen := congrArg List.length hbs
            rw [List.length_append, List.length_nil] at hlen
            omega
          | cons b tl =>
            rw [utf8DecodeAux, ← hbs, hone]
            simp only []
            rw [ih rest f hr (by omega)]
            rfl

theorem utf8Decode_utf8Encode (cps bytes : List Nat) (h : utf8Encode cps = some bytes) :
    utf8Decode bytes = some cps :=
  utf8DecodeAux_utf8Encode cps bytes bytes.length h (Nat.le_refl _)

theorem utf8Encode_isSome (cps : List Nat) (h : ∀ c ∈ cps, isScalar c) :
    ∃ bytes, utf8Encode cps = some bytes := by
  induction cps with
  | nil => exact ⟨[], rfl⟩
  | cons c cs ih =>
    obtain ⟨rest, hr⟩ := ih (fun x hx => h x (List.mem_cons_of_mem _ hx))
    have hc := h c (List.mem_cons_self _ _)
    unfold isScalar at hc
    have : ∃ bs, utf8EncodeChar c = some bs := by
      unfold utf8EncodeChar
      split_ifs <;> first | exact ⟨_, rfl⟩ | omega
    obtain ⟨bs, hbs⟩ := this
    exact ⟨bs ++ rest, by rw [utf8Encode, hbs, hr]⟩

/-! ## Numbers -/

theorem shiftFor_small (n : Nat) (h : n < 2 ^ 53) : shiftFor n n = 0 := by
  cases n with
  | zero => rfl
  | succ k => rw [shiftFor, if_pos h]

theorem round53_of_le (n : Nat) (h : n ≤ 2 ^ 53) : round53 n = n := by
  rcases Nat.lt_or_ge n (2 ^ 53) with hlt | hge
  · have hmod : n % 1 = 0 := Nat.mod_one n
    simp [round53, shiftFor_small n hlt, hmod]
  · have : n = 2 ^ 53 := Nat.le_antisymm h hge
    subst this
    decide

/-- An integer that a double holds exactly converts to that double. -/
theorem PyLong_AsDouble_exact (v : Int) (h : round53 v.natAbs = v.natAbs)
    (hlim : v.natAbs < DBL_LIMIT) : PyLong_AsDouble v = some (.finite v 0) := by
  unfold PyLong_AsDouble
  simp only [h]
  rw [if_neg (Nat.not_le.mpr hlim)]
  congr 2
  split_ifs <;> omega

/-- Every integer of magnitude at most `2 ^ 53` is held exactly. -/
theorem RoundTrips_of_le (v : Int) (h : v.natAbs ≤ 2 ^ 53) : RoundTrips (.int v) := by
  have : (2 : Nat) ^ 53 < DBL_LIMIT := by decide
  exact ⟨round53_of_le v.natAbs h, by omega⟩

/-! ## The top slot -/

theorem normalize_top (ctx : Nat) (x : DukValue) (H : duk_heap) :
    duk_normalize_index ctx (-1) (duk_push ctx x H) = some (H.valstack ctx).length := by
  unfold duk_normalize_index
  simp only [valstack_duk_push, List.length_append, List.length_singleton]
  have h1 : ¬ (0 : Int) ≤ -1 := by omega
  have h2 : - (-1 : Int) ≤ ((H.valstack ctx).length + 1 : Nat) := by omega
  simp only [h1, h2, if_false, if_true]
  congr 1
  omega

theorem get_tval_top_index (ctx : Nat) (x : DukValue) (H : duk_heap) :
    duk_get_tval ctx ((H.valstack ctx).length : Int) (duk_push ctx x H) = some x := by
  unfold duk_get_tval
  simp only [valstack_duk_push, List.length_append, List.length_singleton]
  have h1 : (0 : Int) ≤ ((H.valstack ctx).length : Int) := by omega
  have h2 : ((H.valstack ctx).length : Int) < ((H.valstack ctx).length + 1 : Nat) := by omega
  simp only [h1, h2, if_true, Int.toNat_ofNat]
  simp

/-- Decoding a finite engine number: an integer when the fractional part is
zero, else a float holding the same double. -/
theorem duk_to_python_finite_number (ctx : Nat) (H : duk_heap) (num : Int) (exp : Nat) :
    duk_to_python ctx (-1) (duk_push_number ctx (.finite num exp) H) =
      (if num.tmod (2 ^ exp) = 0 then .ok (.int (num.tdiv (2 ^ exp)))
        else .ok (.float (.finite num exp)),
       duk_push_number ctx (.finite num exp) H) := by
  unfold duk_push_number
  simp only [duk_to_python, normalize_top, get_tval_top_index, modf_is_zero, PyLong_FromDouble]
  by_cases h : num.tmod (2 ^ exp) = 0
  · simp [h, Except.map]
  · simp [h]

/-- C3. The engine number `Infinity` (of either sign) is not decoded: `modf`
reports a zero fractional part, the integer branch is taken and
`PyLong_FromDouble` raises OverflowError, so neither a host integer nor a host
float is returned. -/
theorem duk_to_python_infinity_raises (ctx : Nat) (H : duk_heap) (neg : Bool) :
    modf_is_zero (.inf neg) = true ∧
    duk_to_python ctx (-1) (duk_push_number ctx (.inf neg) H) =
      (.error .OverflowError, duk_push_number ctx (.inf neg) H) := by
  refine ⟨rfl, ?_⟩
  unfold duk_push_number
  simp [duk_to_python, normalize_top, get_tval_top_index, modf_is_zero, PyLong_FromDouble,
    Except.map]

/-! ## Round trip of primitives -/

/-- C2, as amended. For the undefined sentinel, None, True, False, an integer
that a double holds exactly (every integer of magnitude at most `2 ^ 53` is
one) and a text of Unicode scalar values, `python_to_duk` succeeds and pushes
one engine value, and `duk_to_python` on that value returns the same host
value and leaves the stack as it was. -/
theorem primitive_round_trip (ctx : Nat) (H : duk_heap) (v : PyObject) (hv : RoundTrips v) :
    ∃ top, python_to_duk ctx v H = (0, duk_push ctx top H) ∧
      duk_to_python ctx (-1) (duk_push ctx top H) = (.ok v, duk_push ctx top H) := by
  cases v with
  | undefined =>
    exact ⟨.undefined, by simp [python_to_duk, duk_push_undefined],
      by simp [duk_to_python, normalize_top, get_tval_top_index]⟩
  | none =>
    exact ⟨.null, by simp [python_to_duk, duk_push_null],
      by simp [duk_to_python, normalize_top, get_tval_top_index]⟩
  | bool b =>
    cases b with
    | true =>
      exact ⟨.boolean true, by simp [python_to_duk, duk_push_true],
        by simp [duk_to_python, normalize_top, get_tval_top_index]⟩
    | false =>
      exact ⟨.boolean false, by simp [python_to_duk, duk_push_false],
        by simp [duk_to_python, normalize_top, get_tval_top_index]⟩
  | int n =>
    have hn : round53 n.natAbs = n.natAbs ∧ n.natAbs < DBL_LIMIT := hv
    refine ⟨.number (.finite n 0), ?_, ?_⟩
    · simp [python_to_duk, PyLong_AsDouble_exact n hn.1 hn.2, duk_push_number]
    · have := duk_to_python_finite_number ctx H n 0
      simp only [duk_push_number, pow_zero, Int.tmod_one, Int.tdiv_one, if_true] at this
      exact this
  | str cps =>
    have hs : ∀ c ∈ cps, isScalar c := hv
    obtain ⟨bytes, hb⟩ := utf8Encode_isSome cps hs
    refine ⟨.string bytes, ?_, ?_⟩
    · simp [python_to_duk, hb, duk_push_lstring]
    · simp only [duk_to_python, normalize_top, get_tval_top_index, duk_dup, Option.getD_some,
        duk_get_tval_top, utf8Decode_utf8Encode cps bytes hb, duk_pop_duk_push]
  | float d => exact absurd hv (by simp [RoundTrips])
  | dict items => exact absurd hv (by simp [RoundTrips])
  | list items => exact absurd hv (by simp [RoundTrips])
  | callable f => exact absurd hv (by simp [RoundTrips])
  | proxy ty ref => exact absurd hv (by simp [RoundTrips])
  | other id => exact absurd hv (by simp [RoundTrips])

/-- C2 at a concrete input: the text "A", "e acute", the euro sign and an
emoji, on the stack of a fresh heap. -/
theorem primitive_round_trip_witness :
    RoundTrips (.str [0x41, 0xE9, 0x20AC, 0x1F600]) ∧
    ∃ top, python_to_duk 2 (.str [0x41, 0xE9, 0x20AC, 0x1F600]) duk_create_heap_default =
        (0, duk_push 2 top duk_create_heap_default) ∧
      duk_to_python 2 (-1) (duk_push 2 top duk_create_heap_default) =
        (.ok (.str [0x41, 0xE9, 0x20AC, 0x1F600]), duk_push 2 top duk_create_heap_default) :=
  ⟨by simp [RoundTrips, isScalar],
   primitive_round_trip 2 duk_create_heap_default (.str [0x41, 0xE9, 0x20AC, 0x1F600])
     (by simp [RoundTrips, isScalar])⟩

/-- C2 as stated fails: the integer `2 ^ 53 + 1` is encoded (return value 0)
and decodes to the different integer `2 ^ 53`; a text holding the lone
surrogate U+D800 is not encoded at all (return value -1, nothing pushed). -/
theorem primitive_round_trip_counterexample :
    (python_to_duk 2 (.int 9007199254740993) duk_create_heap_default).1 = 0 ∧
    (duk_to_python 2 (-1)
        (python_to_duk 2 (.int 9007199254740993) duk_create_heap_default).2).1 =
      .ok (.int 9007199254740992) ∧
    (duk_to_python 2 (-1)
        (python_to_duk 2 (.int 9007199254740993) duk_create_heap_default).2).1 ≠
      .ok (.int 9007199254740993) ∧
    (python_to_duk 2 (.str [0xD800]) duk_create_heap_default).1 = -1 ∧
    (python_to_duk 2 (.str [0xD800]) duk_create_heap_default).2.valstack 2 = [] := by
  have h : (duk_to_python 2 (-1)
        (python_to_duk 2 (.int 9007199254740993) duk_create_heap_default).2).1 =
      .ok (.int 9007199254740992) := by rfl
  refine ⟨by rfl, h, ?_, by rfl, by rfl⟩
  rw [h]
  intro hc
  injection hc with hc
  injection hc with hc
  omega

/-! ## Stack effect of the property operations -/

@[simp] theorem valstack_storeProp (t : Option DukValue) (k v : DukValue) (H : duk_heap) :
    (storeProp t k v H).valstack = H.valstack := by
  unfold storeProp
  split
  · split <;> rfl
  · rfl

@[simp] theorem valstack_duk_put_prop (ctx : Nat) (i : Int) (H : duk_heap) :
    (duk_put_prop ctx i H).valstack ctx =
      (H.valstack ctx).take ((H.valstack ctx).length - 2) := by
  simp [duk_put_prop]

@[simp] theorem valstack_duk_put_prop_string (ctx : Nat) (i : Int) (key : List Nat)
    (H : duk_heap) :
    (duk_put_prop_string ctx i key H).valstack ctx =
      (H.valstack ctx).take ((H.valstack ctx).length - 1) := by
  simp [duk_put_prop_string]

@[simp] theorem valstack_duk_put_prop_index (ctx : Nat) (i : Int) (n : Nat) (H : duk_heap) :
    (duk_put_prop_index ctx i n H).valstack ctx =
      (H.valstack ctx).take ((H.valstack ctx).length - 1) := by
  simp [duk_put_prop_index]

@[simp] theorem valstack_pushNewObject (ctx : Nat) (cls : ObjClass) (H : duk_heap) :
    (pushNewObject ctx cls H).valstack ctx = H.valstack ctx ++ [.object H.objs.length] := by
  simp [pushNewObject]

@[simp] theorem valstack_duk_pop (ctx : Nat) (H : duk_heap) :
    (duk_pop ctx H).valstack ctx = (H.valstack ctx).take ((H.valstack ctx).length - 1) := by
  simp [duk_pop]

theorem take_append_one (s : List DukValue) (a : DukValue) :
    (s ++ [a]).take ((s ++ [a]).length - 1) = s := by
  simp

theorem take_append_two (s : List DukValue) (a b : DukValue) :
    (s ++ [a] ++ [b]).take ((s ++ [a] ++ [b]).length - 2) = s := by
  simp

theorem take_append_one_two (s : List DukValue) (a : DukValue) :
    (s ++ [a]).take ((s ++ [a]).length - 2) = s.take (s.length - 1) := by
  have hlen : (s ++ [a]).length - 2 = s.length - 1 := by
    rw [List.length_append, List.length_singleton]
    omega
  rw [hlen, List.take_append_of_le_length (Nat.sub_le _ _)]

@[simp] theorem take_succ_append_pair (s : List DukValue) (a b : DukValue) :
    (s ++ [a, b]).take (s.length + 1) = s ++ [a] := by
  have h : s ++ [a, b] = (s ++ [a]) ++ [b] := by simp
  rw [h, List.take_append_of_le_length (by simp)]
  exact List.take_of_length_le (by simp)

/-! ## Stack discipline of `python_to_duk` -/

mutual
theorem python_to_duk_stack (ctx : Nat) : ∀ (v : PyObject) (H : duk_heap),
    (∃ top, (python_to_duk ctx v H).1 = 0 ∧
        (python_to_duk ctx v H).2.valstack ctx = H.valstack ctx ++ [top]) ∨
      ((python_to_duk ctx v H).1 = -1 ∧
        (python_to_duk ctx v H).2.valstack ctx = H.valstack ctx)
  | .undefined, H => Or.inl ⟨.undefined, by simp [python_to_duk, duk_push_undefined]⟩
  | .none, H => Or.inl ⟨.null, by simp [python_to_duk, duk_push_null]⟩
  | .bool true, H => Or.inl ⟨.boolean true, by simp [python_to_duk, duk_push_true]⟩
  | .bool false, H => Or.inl ⟨.boolean false, by simp [python_to_duk, duk_push_false]⟩
  | .int n, H => by
    cases h : PyLong_AsDouble n with
    | none => exact Or.inr (by simp [python_to_duk, h])
    | some d => exact Or.inl ⟨.number d, by simp [python_to_duk, h, duk_push_number]⟩
  | .float d, H => Or.inl ⟨.number d, by simp [python_to_duk, duk_push_number]⟩
  | .str cps, H => by
    cases h : utf8Encode cps with
    | none => exact Or.inr (by simp [python_to_duk, h])
    | some bytes => exact Or.inl ⟨.string bytes, by simp [python_to_duk, h, duk_push_lstring]⟩
  | .callable f, H =>
    Or.inl ⟨.object H.objs.length, by
      simp [python_to_duk, duk_push_c_function, duk_push_pointer]⟩
  | .other id, H => Or.inr (by simp [python_to_duk])
  | .proxy ty ref, H => by
    by_cases h1 : ty = .DukObject_Type
    · exact Or.inl ⟨.object ref, by simp [python_to_duk, h1, DukObject_push]⟩
    · by_cases h2 : proxyCallable ty = true
      · exact Or.inl ⟨.object H.objs.length, by
          simp [python_to_duk, h1, h2, duk_push_c_function, duk_push_pointer]⟩
      · exact Or.inr (by simp [python_to_duk, h1, h2])
  | .dict items, H => by
    have hloop := python_to_duk_dict_stack ctx items (duk_push_object ctx H)
    rw [python_to_duk]
    rcases hloop with ⟨h0, hs⟩ | ⟨h1, hs⟩
    · exact Or.inl ⟨.object H.objs.length, h0, by rw [hs]; simp [duk_push_object]⟩
    · exact Or.inr ⟨h1, by rw [hs]; simp [duk_push_object]⟩
  | .list items, H => by
    have hloop := python_to_duk_list_stack ctx items 0 (duk_push_array ctx H)
    rw [python_to_duk]
    rcases hloop with ⟨h0, hs⟩ | ⟨h1, hs⟩
    · exact Or.inl ⟨.object H.objs.length, h0, by rw [hs]; simp [duk_push_array]⟩
    · exact Or.inr ⟨h1, by rw [hs]; simp [duk_push_array]⟩
theorem python_to_duk_dict_stack (ctx : Nat) : ∀ (items : List (PyObject × PyObject))
    (H : duk_heap),
    ((python_to_duk_dict ctx items H).1 = 0 ∧
        (python_to_duk_dict ctx items H).2.valstack ctx = H.valstack ctx) ∨
      ((python_to_duk_dict ctx items H).1 = -1 ∧
        (python_to_duk_dict ctx items H).2.valstack ctx =
          (H.valstack ctx).take ((H.valstack ctx).length - 1))
  | [], H => Or.inl (by simp [python_to_duk_dict])
  | (key, val) :: rest, H => by
    rw [python_to_duk_dict]
    rcases python_to_duk_stack ctx key H with ⟨tk, hk0, hks⟩ | ⟨hk1, hks⟩
    · have hk : ¬ (python_to_duk ctx key H).1 = -1 := by rw [hk0]; decide
      simp only [hk, if_false]
      rcases python_to_duk_stack ctx val (python_to_duk ctx key H).2 with
        ⟨tv, hv0, hvs⟩ | ⟨hv1, hvs⟩
      · have hv : ¬ (python_to_duk ctx val (python_to_duk ctx key H).2).1 = -1 := by
          rw [hv0]; decide
        simp only [hv, if_false]
        have hput : (duk_put_prop ctx (-3)
            (python_to_duk ctx val (python_to_duk ctx key H).2).2).valstack ctx
            = H.valstack ctx := by
          rw [valstack_duk_put_prop, hvs, hks, take_append_two]
        rcases python_to_duk_dict_stack ctx rest (duk_put_prop ctx (-3)
            (python_to_duk ctx val (python_to_duk ctx key H).2).2) with ⟨h0, hs⟩ | ⟨h1, hs⟩
        · exact Or.inl ⟨h0, by rw [hs, hput]⟩
        · exact Or.inr ⟨h1, by rw [hs, hput]⟩
      · simp only [hv1, if_true]
        refine Or.inr ⟨trivial, ?_⟩
        rw [valstack_duk_pop_n, hvs, hks, take_append_one_two]
    · simp only [hk1, if_true]
      exact Or.inr ⟨trivial, by rw [valstack_duk_pop, hks]⟩
theorem python_to_duk_list_stack (ctx : Nat) : ∀ (items : List PyObject) (i : Nat)
    (H : duk_heap),
    ((python_to_duk_list ctx items i H).1 = 0 ∧
        (python_to_duk_list ctx items i H).2.valstack ctx = H.valstack ctx) ∨
      ((python_to_duk_list ctx items i H).1 = -1 ∧
        (python_to_duk_list ctx items i H).2.valstack ctx =
          (H.valstack ctx).take ((H.valstack ctx).length - 1))
  | [], i, H => Or.inl (by simp [python_to_duk_list])
  | val :: rest, i, H => by
    rw [python_to_duk_list]
    rcases python_to_duk_stack ctx val H with ⟨tv, hv0, hvs⟩ | ⟨hv1, hvs⟩
    · have hv : ¬ (python_to_duk ctx val H).1 = -1 := by rw [hv0]; decide
      simp only [hv, if_false]
      have hput : (duk_put_prop_index ctx (-2) i (python_to_duk ctx val H).2).valstack ctx
          = H.valstack ctx := by
        rw [valstack_duk_put_prop_index, hvs, take_append_one]
      rcases python_to_duk_list_stack ctx rest (i + 1)
          (duk_put_prop_index ctx (-2) i (python_to_duk ctx val H).2) with ⟨h0, hs⟩ | ⟨h1, hs⟩
      · exact Or.inl ⟨h0, by rw [hs, hput]⟩
      · exact Or.inr ⟨h1, by rw [hs, hput]⟩
    · simp only [hv1, if_true]
      exact Or.inr ⟨trivial, by rw [valstack_duk_pop, hvs]⟩
end

theorem get_tval_neg (ctx : Nat) (H : duk_heap) (k : Nat) (hk : 0 < k)
    (hlen : k ≤ (H.valstack ctx).length) :
    duk_get_tval ctx (-(k : Int)) H = (H.valstack ctx)[(H.valstack ctx).length - k]? := by
  unfold duk_get_tval
  have h1 : ¬ (0 : Int) ≤ -(k : Int) := by omega
  have h2 : - (-(k : Int)) ≤ ((H.valstack ctx).length : Int) := by omega
  simp only [h1, h2, if_false, if_true]
  congr 1
  omega

theorem getElem?_length_append (s t : List DukValue) (a : DukValue) :
    (s ++ a :: t)[s.length]? = some a := by
  rw [List.getElem?_append_right (Nat.le_refl _)]
  simp

theorem get_tval_neg1 (ctx : Nat) (H : duk_heap) (s : List DukValue) (a : DukValue)
    (h : H.valstack ctx = s ++ [a]) : duk_get_tval ctx (-1) H = some a := by
  have := get_tval_neg ctx H 1 (by omega) (by rw [h]; simp)
  simp only [Nat.cast_one] at this
  have hl : (s ++ [a]).length - 1 = s.length := by simp
  rw [this, h, hl]
  exact getElem?_length_append s [] a

theorem get_tval_neg2 (ctx : Nat) (H : duk_heap) (s : List DukValue) (a b : DukValue)
    (h : H.valstack ctx = s ++ [a, b]) : duk_get_tval ctx (-2) H = some a := by
  have := get_tval_neg ctx H 2 (by omega) (by rw [h]; simp)
  simp only [Nat.cast_ofNat] at this
  have hl : (s ++ [a, b]).length - 2 = s.length := by simp
  rw [this, h, hl]
  exact getElem?_length_append s [b] a

theorem get_tval_neg3 (ctx : Nat) (H : duk_heap) (s : List DukValue) (a b c : DukValue)
    (h : H.valstack ctx = s ++ [a, b, c]) : duk_get_tval ctx (-3) H = some a := by
  have := get_tval_neg ctx H 3 (by omega) (by rw [h]; simp)
  simp only [Nat.cast_ofNat] at this
  have hl : (s ++ [a, b, c]).length - 3 = s.length := by simp
  rw [this, h, hl]
  exact getElem?_length_append s [b, c] a

theorem objs_storeProp_last (k v : DukValue) (H : duk_heap) (objs : List HObject)
    (o : HObject) (h : H.objs = objs ++ [o]) :
    (storeProp (some (.object objs.length)) k v H).objs =
      objs ++ [{ o with props := propSet k v o.props }] := by
  unfold storeProp
  simp [h]

/-! ## Proxies handed back to the engine -/

/-- The trampoline `python_to_duk` builds around a host pointer: one fresh
native function object, carrying the hidden `py_func` pointer, on the stack
top. -/
theorem trampoline_built (ctx : Nat) (p : HostPtr) (H : duk_heap) :
    (duk_put_prop_string ctx (-2) py_func_key
        (duk_push_pointer ctx p (duk_push_c_function ctx H))).valstack ctx =
      H.valstack ctx ++ [.object H.objs.length] ∧
    (duk_put_prop_string ctx (-2) py_func_key
        (duk_push_pointer ctx p (duk_push_c_function ctx H))).objs =
      H.objs ++ [⟨.cFunction, [(.string py_func_key, .pointer p)]⟩] := by
  constructor
  · simp [duk_push_pointer, duk_push_c_function]
  · have hs : (duk_push_pointer ctx p (duk_push_c_function ctx H)).valstack ctx =
        H.valstack ctx ++ [.object H.objs.length, .pointer p] := by
      simp [duk_push_pointer, duk_push_c_function]
    have ho : (duk_push_pointer ctx p (duk_push_c_function ctx H)).objs =
        H.objs ++ [⟨.cFunction, []⟩] := by
      simp [duk_push_pointer, duk_push_c_function, pushNewObject]
    unfold duk_put_prop_string
    simp only [objs_duk_pop_n]
    rw [get_tval_neg2 ctx _ _ _ _ hs, objs_storeProp_last _ _ _ _ _ ho]
    have h1 : duk_get_tval ctx (-1) (duk_push_pointer ctx p (duk_push_c_function ctx H)) =
        some (.pointer p) := duk_get_tval_top ctx _ _
    rw [h1]
    rfl

/-- C5. A function proxy handed to `python_to_duk` is wrapped again: its type
is not `DukObject_Type`, it is callable, so a fresh native function carrying a
`py_func` pointer to the proxy is pushed instead of the engine function `ref`.
An array proxy is refused (-1, nothing pushed). Only a proxy of the generic
object type has its engine object pushed. -/
theorem python_to_duk_rewraps_function_proxy (ctx : Nat) (ref : Nat) (H : duk_heap) :
    (python_to_duk ctx (.proxy .DukFunction_Type ref) H).1 = 0 ∧
    (python_to_duk ctx (.proxy .DukFunction_Type ref) H).2.valstack ctx =
      H.valstack ctx ++ [.object H.objs.length] ∧
    (python_to_duk ctx (.proxy .DukFunction_Type ref) H).2.objs =
      H.objs ++ [⟨.cFunction,
        [(.string py_func_key, .pointer (.proxy .DukFunction_Type ref))]⟩] ∧
    python_to_duk ctx (.proxy .DukArray_Type ref) H = (-1, H) ∧
    python_to_duk ctx (.proxy .DukObject_Type ref) H = (0, duk_push ctx (.object ref) H) := by
  obtain ⟨h1, h2⟩ := trampoline_built ctx (.proxy .DukFunction_Type ref) H
  refine ⟨?_, ?_, ?_, ?_, ?_⟩
  · simp [python_to_duk, proxyCallable]
  · simpa [python_to_duk, proxyCallable] using h1
  · simpa [python_to_duk, proxyCallable] using h2
  · simp [python_to_duk, proxyCallable]
  · simp [python_to_duk, DukObject_push]

/-- A host callable that is not a proxy gets a trampoline carrying the pointer
to the callable. -/
theorem python_to_duk_callable (ctx : Nat) (f : Nat) (H : duk_heap) :
    (python_to_duk ctx (.callable f) H).1 = 0 ∧
    (python_to_duk ctx (.callable f) H).2.valstack ctx =
      H.valstack ctx ++ [.object H.objs.length] ∧
    (python_to_duk ctx (.callable f) H).2.objs =
      H.objs ++ [⟨.cFunction, [(.string py_func_key, .pointer (.callable f))]⟩] := by
  obtain ⟨h1, h2⟩ := trampoline_built ctx (.callable f) H
  refine ⟨?_, ?_, ?_⟩
  · simp [python_to_duk]
  · simpa [python_to_duk] using h1
  · simpa [python_to_duk] using h2

/-! ## The trampoline -/

/-- Decoding leaves the heap, and so every stack, as it was. -/
theorem duk_to_python_heap (ctx : Nat) (index : Int) (H : duk_heap) :
    (duk_to_python ctx index H).2 = H := by
  unfold duk_to_python
  split
  · rfl
  · split
    · rfl
    · rfl
    · rfl
    · split <;> rfl
    · simp only [duk_dup, duk_pop_duk_push]
    · split <;> rfl
    · rfl
    · rfl
    · rfl

theorem decode_args_heap (ctx : Nat) : ∀ (n i : Nat) (H : duk_heap),
    (decode_args ctx n i H).2 = H
  | 0, _, _ => rfl
  | n + 1, i, H => by
    rw [decode_args]
    have h1 := duk_to_python_heap ctx i H
    cases hd : duk_to_python ctx (↑i) H with
    | mk r H1 =>
      rw [hd] at h1
      simp only at h1
      subst h1
      cases r with
      | error e => rfl
      | ok arg =>
        simp only
        have h2 := decode_args_heap ctx n (i + 1) H1
        cases hr : decode_args ctx n (i + 1) H1 with
        | mk args H2 =>
          rw [hr] at h2
          simp only at h2
          subst h2
          cases args <;> rfl

theorem valstack_trampoline_frame (ctx : Nat) (H : duk_heap) :
    (trampoline_frame ctx H).valstack ctx =
      H.valstack ctx ++ [H.curfunc ctx,
        loadProp (some (H.curfunc ctx)) (.string py_func_key) H] := by
  unfold trampoline_frame duk_get_prop_string duk_push_current_function
  rw [duk_get_tval_top]
  simp [loadProp, duk_push, setStack]

/-- C4. When the host callable behind a trampoline returns a value that
`python_to_duk` does not convert, the trampoline still returns 1 and the value
the script receives is the slot left on the stack top: the hidden `py_func`
pointer to the host callable. -/
theorem trampoline_returns_hidden_pointer (env : HostEnv) (ctx : Nat) (H : duk_heap)
    (f : Nat) (args : List PyObject) (r : PyObject)
    (hfun : loadProp (some (H.curfunc ctx)) (.string py_func_key) H = .pointer (.callable f))
    (hargs : (decode_args ctx (duk_get_top ctx H) 0 (trampoline_frame ctx H)).1 = some args)
    (hcall : env.call (.callable f) args = some r)
    (hfail : (python_to_duk ctx r (trampoline_frame ctx H)).1 = -1) :
    python_function_caller env ctx H =
      .returned 1 (python_to_duk ctx r (trampoline_frame ctx H)).2 ∧
    native_call_outcome ctx (python_function_caller env ctx H) =
      .value (.pointer (.callable f)) := by
  have hframe := valstack_trampoline_frame ctx H
  rw [hfun] at hframe
  have hptr : duk_get_pointer ctx (-1) (trampoline_frame ctx H) = .callable f := by
    have h1 : duk_get_tval ctx (-1) (trampoline_frame ctx H) =
        some (.pointer (.callable f)) :=
      get_tval_neg1 ctx _ (H.valstack ctx ++ [H.curfunc ctx]) _ (by rw [hframe]; simp)
    unfold duk_get_pointer
    rw [h1]
  have hheap := decode_args_heap ctx (duk_get_top ctx H) 0 (trampoline_frame ctx H)
  have hcaller : python_function_caller env ctx H =
      .returned 1 (python_to_duk ctx r (trampoline_frame ctx H)).2 := by
    unfold python_function_caller
    simp only []
    change (match decode_args ctx (duk_get_top ctx H) 0 (trampoline_frame ctx H) with
      | (Option.none, H3) => NativeExit.returned DUK_RET_TYPE_ERROR H3
      | (some args, H3) =>
        match env.call (duk_get_pointer ctx (-1) (trampoline_frame ctx H)) args with
        | Option.none => NativeExit.thrown "Function call failed" H3
        | some result => NativeExit.returned 1 (python_to_duk ctx result H3).2) = _
    cases hd : decode_args ctx (duk_get_top ctx H) 0 (trampoline_frame ctx H) with
    | mk a H3 =>
      rw [hd] at hargs hheap
      simp only at hargs hheap
      subst hargs hheap
      simp only [hptr, hcall]
  refine ⟨hcaller, ?_⟩
  rw [hcaller]
  unfold native_call_outcome
  simp only [if_true]
  rcases python_to_duk_stack ctx r (trampoline_frame ctx H) with ⟨top, h0, _⟩ | ⟨_, hs⟩
  · rw [hfail] at h0
    exact absurd h0 (by decide)
  · rw [get_tval_neg1 ctx _ (H.valstack ctx ++ [H.curfunc ctx]) (.pointer (.callable f))
      (by rw [hs, hframe]; simp)]
    rfl

/-- C4 at a concrete call: the script calls the trampoline of host callable 7
with the argument 21, and the callable returns a tuple. -/
theorem trampoline_returns_hidden_pointer_witness :
    python_function_caller tupleEnv 2 callEntry =
      .returned 1 (python_to_duk 2 (.other 0) (trampoline_frame 2 callEntry)).2 ∧
    native_call_outcome 2 (python_function_caller tupleEnv 2 callEntry) =
      .value (.pointer (.callable 7)) :=
  trampoline_returns_hidden_pointer tupleEnv 2 callEntry 7 [.int 21] (.other 0)
    (by rfl) (by rfl) (by rfl) (by rfl)

/-! ## `DukContext_eval` -/

/-- C7. When the script raises, `DukContext_eval` fails with the RuntimeError
that carries the engine's message and returns without popping the error: the
stack is one slot deeper than before the call, with the rendered error value
on top. -/
theorem DukContext_eval_error_leaves_residue (E : Engine) (ctx : Nat) (code : List Nat)
    (noresult : Bool) (H : duk_heap) (e : DukValue) (H1 : duk_heap)
    (hraise : E.run ctx code H = (.error e, H1)) :
    (DukContext_eval E ctx code noresult H).1 =
      .error (.RuntimeError "Failed to evaluate code: %s" (E.render e)) ∧
    (DukContext_eval E ctx code noresult H).2.valstack ctx =
      H.valstack ctx ++ [.string (E.render e)] ∧
    duk_get_top ctx (DukContext_eval E ctx code noresult H).2 = duk_get_top ctx H + 1 := by
  have hst : H1.valstack ctx = H.valstack ctx := by
    have := E.run_stack ctx code H
    rw [hraise] at this
    exact this
  have hp : duk_peval_string E ctx code H = (1, duk_push ctx e H1) := by
    unfold duk_peval_string
    rw [hraise]
  have hne : ¬ ((1 : Int) = 0) := by decide
  have hs : (DukContext_eval E ctx code noresult H).2.valstack ctx =
      H.valstack ctx ++ [.string (E.render e)] := by
    unfold DukContext_eval
    simp only [hp, ne_eq, hne, not_false_eq_true, if_true, duk_safe_to_string,
      valstack_duk_push, valstack_duk_pop, hst]
    simp [duk_get_tval_top]
  refine ⟨?_, hs, ?_⟩
  · unfold DukContext_eval
    simp only [hp, ne_eq, hne, not_false_eq_true, if_true, duk_safe_to_string,
      duk_get_tval_top, Option.getD_some]
  · unfold duk_get_top
    rw [hs, List.length_append, List.length_singleton]

/-- C7 at a concrete input: an engine that raises, on a fresh heap. -/
theorem DukContext_eval_error_leaves_residue_witness :
    (DukContext_eval raisingEngine 2 [] false duk_create_heap_default).1 =
      .error (.RuntimeError "Failed to evaluate code: %s"
        (raisingEngine.render (.string [111, 111, 112, 115]))) ∧
    (DukContext_eval raisingEngine 2 [] false duk_create_heap_default).2.valstack 2 =
      duk_create_heap_default.valstack 2 ++
        [.string (raisingEngine.render (.string [111, 111, 112, 115]))] ∧
    duk_get_top 2 (DukContext_eval raisingEngine 2 [] false duk_create_heap_default).2 =
      duk_get_top 2 duk_create_heap_default + 1 :=
  DukContext_eval_error_leaves_residue raisingEngine 2 [] false duk_create_heap_default
    (.string [111, 111, 112, 115]) duk_create_heap_default rfl

/-- The paths of `DukContext_eval` on which the script does not raise (result
converted, conversion failed, result discarded) leave the stack at its depth
before the call. -/
theorem DukContext_eval_success_restores (E : Engine) (ctx : Nat) (code : List Nat)
    (noresult : Bool) (H : duk_heap) (v : DukValue) (H1 : duk_heap)
    (hok : E.run ctx code H = (.ok v, H1)) :
    (DukContext_eval E ctx code noresult H).2.valstack ctx = H.valstack ctx := by
  have hst : H1.valstack ctx = H.valstack ctx := by
    have := E.run_stack ctx code H
    rw [hok] at this
    exact this
  have hp : duk_peval_string E ctx code H = (0, duk_push ctx v H1) := by
    unfold duk_peval_string
    rw [hok]
  unfold DukContext_eval
  simp only [hp, ne_eq, not_true_eq_false, if_false]
  cases noresult with
  | true => simp [hst]
  | false => simp [duk_to_python_heap, hst]

/-! ## The trampoline on its intended paths -/

/-- When the host callable returns a value that `python_to_duk` converts, the
script receives that converted value. -/
theorem trampoline_returns_encoding (env : HostEnv) (ctx : Nat) (H : duk_heap)
    (p : HostPtr) (args : List PyObject) (r : PyObject)
    (hfun : loadProp (some (H.curfunc ctx)) (.string py_func_key) H = .pointer p)
    (hargs : (decode_args ctx (duk_get_top ctx H) 0 (trampoline_frame ctx H)).1 = some args)
    (hcall : env.call p args = some r)
    (hok : (python_to_duk ctx r (trampoline_frame ctx H)).1 = 0) :
    ∃ top, (python_to_duk ctx r (trampoline_frame ctx H)).2.valstack ctx =
        (trampoline_frame ctx H).valstack ctx ++ [top] ∧
      native_call_outcome ctx (python_function_caller env ctx H) = .value top := by
  have hframe := valstack_trampoline_frame ctx H
  rw [hfun] at hframe
  have hptr : duk_get_pointer ctx (-1) (trampoline_frame ctx H) = p := by
    have h1 : duk_get_tval ctx (-1) (trampoline_frame ctx H) = some (.pointer p) :=
      get_tval_neg1 ctx _ (H.valstack ctx ++ [H.curfunc ctx]) _ (by rw [hframe]; simp)
    unfold duk_get_pointer
    rw [h1]
  have hheap := decode_args_heap ctx (duk_get_top ctx H) 0 (trampoline_frame ctx H)
  have hcaller : python_function_caller env ctx H =
      .returned 1 (python_to_duk ctx r (trampoline_frame ctx H)).2 := by
    unfold python_function_caller
    simp only []
    change (match decode_args ctx (duk_get_top ctx H) 0 (trampoline_frame ctx H) with
      | (Option.none, H3) => NativeExit.returned DUK_RET_TYPE_ERROR H3
      | (some args, H3) =>
        match env.call (duk_get_pointer ctx (-1) (trampoline_frame ctx H)) args with
        | Option.none => NativeExit.thrown "Function call failed" H3
        | some result => NativeExit.returned 1 (python_to_duk ctx result H3).2) = _
    cases hd : decode_args ctx (duk_get_top ctx H) 0 (trampoline_frame ctx H) with
    | mk a H3 =>
      rw [hd] at hargs hheap
      simp only at hargs hheap
      subst hargs hheap
      simp only [hptr, hcall]
  rcases python_to_duk_stack ctx r (trampoline_frame ctx H) with ⟨top, _, hs⟩ | ⟨h1, _⟩
  · refine ⟨top, hs, ?_⟩
    rw [hcaller]
    unfold native_call_outcome
    simp only [if_true]
    rw [get_tval_neg1 ctx _ _ top hs]
    rfl
  · rw [hok] at h1
    exact absurd h1 (by decide)

/-- When the host callable raises, the trampoline throws an engine error and
hands back no value. -/
theorem trampoline_raise_throws (env : HostEnv) (ctx : Nat) (H : duk_heap)
    (args : List PyObject)
    (hargs : (decode_args ctx (duk_get_top ctx H) 0 (trampoline_frame ctx H)).1 = some args)
    (hcall : env.call (duk_get_pointer ctx (-1) (trampoline_frame ctx H)) args = Option.none) :
    native_call_outcome ctx (python_function_caller env ctx H) = .error := by
  have hcaller : python_function_caller env ctx H =
      .thrown "Function call failed"
        (decode_args ctx (duk_get_top ctx H) 0 (trampoline_frame ctx H)).2 := by
    unfold python_function_caller
    simp only []
    change (match decode_args ctx (duk_get_top ctx H) 0 (trampoline_frame ctx H) with
      | (Option.none, H3) => NativeExit.returned DUK_RET_TYPE_ERROR H3
      | (some args, H3) =>
        match env.call (duk_get_pointer ctx (-1) (trampoline_frame ctx H)) args with
        | Option.none => NativeExit.thrown "Function call failed" H3
        | some result => NativeExit.returned 1 (python_to_duk ctx result H3).2) = _
    cases hd : decode_args ctx (duk_get_top ctx H) 0 (trampoline_frame ctx H) with
    | mk a H3 =>
      rw [hd] at hargs
      simp only at hargs
      subst hargs
      simp only [hcall]
  rw [hcaller]
  rfl

/-! ## Reference counting between Contexts -/

/-- What `DukContext_new_global_env` does to the counts, in any world: the
count of `self` goes up by one, no other existing wrapper changes, and the new
wrapper's manager is the manager of `self` when it has one, else `self`. -/
theorem new_global_env_refcounts (self : Nat) (W : World) (hself : self < W.nobjects) :
    ((DukContext_new_global_env self W).objects self).ob_refcnt =
      (W.objects self).ob_refcnt + 1 ∧
    (∀ a, a ≠ self → a ≠ W.nobjects →
      ((DukContext_new_global_env self W).objects a).ob_refcnt = (W.objects a).ob_refcnt) ∧
    ((DukContext_new_global_env self W).objects W.nobjects).heap_manager =
      some ((W.objects self).heap_manager.getD self) ∧
    ((DukContext_new_global_env self W).objects W.nobjects).ob_refcnt = 1 := by
  have hne : self ≠ W.nobjects := by omega
  refine ⟨?_, ?_, ?_, ?_⟩
  · simp [DukContext_new_global_env, DukContext_init_internal, World.onHeap,
      World.onObject, World.allocContext, Py_INCREF, hne]
  · intro a h1 h2
    simp [DukContext_new_global_env, DukContext_init_internal, World.onHeap,
      World.onObject, World.allocContext, Py_INCREF, h1, h2]
  · simp [DukContext_new_global_env, DukContext_init_internal, World.onHeap,
      World.onObject, World.allocContext, Py_INCREF, hne.symm]
  · simp [DukContext_new_global_env, DukContext_init_internal, World.onHeap,
      World.onObject, World.allocContext, Py_INCREF, hne.symm, PyObject_New]

/-- C1. `DukContext_new_global_env` called on a derived Context increments the
count of that derived Context, while the new Context's `heap_manager`, whose
count `DukContext_dealloc` decrements, is the root. After
`R = Context(); D1 = R.new_global_env(); D2 = D1.new_global_env()` the counts
are R: 2, D1: 2, D2: 1 and D2's manager is R; `del D2` takes R to 1; `del R`
then takes R to 0, R is deallocated and `duk_destroy_heap` runs while D1 is
alive and still referenced by the host. -/
theorem new_global_env_increments_wrong_context :
    worldD1.wrappers = [(2, none, false, 1), (1, some 0, false, 1)] ∧
    worldD2.wrappers = [(2, none, false, 1), (2, some 0, false, 1), (1, some 0, false, 1)] ∧
    worldD2Released.wrappers =
      [(1, none, false, 1), (2, some 0, false, 1), (0, some 0, true, 0)] ∧
    worldD2Released.heapsDestroyed = [false] ∧
    worldRootReleased.wrappers =
      [(0, none, true, 0), (2, some 0, false, 1), (0, some 0, true, 0)] ∧
    worldRootReleased.heapsDestroyed = [true] := by
  refine ⟨by decide, by decide, by decide, by decide, by decide, by decide⟩

/-- C9. In the state after `R = Context(); D1 = R.new_global_env(); del R` the
root is alive (count 1, held by D1) and its heap exists. Creating
`D = D1.new_global_env()` and deallocating `D` removes D's two stash entries
and then decrements the root's count to 0: the root is deallocated and the heap
is destroyed, with D1 alive. -/
theorem derived_teardown_destroys_heap :
    worldRootKept.wrappers = [(1, none, false, 0), (1, some 0, false, 1)] ∧
    worldRootKept.heapsDestroyed = [false] ∧
    worldRootKeptD.wrappers =
      [(1, none, false, 0), (2, some 0, false, 1), (1, some 0, false, 1)] ∧
    worldRootKeptDReleased.wrappers =
      [(0, none, true, 0), (2, some 0, false, 1), (0, some 0, true, 0)] ∧
    worldRootKeptDReleased.heapsDestroyed = [true] ∧
    worldRootKeptDReleased.stash 0 = none := by
  refine ⟨by decide, by decide, by decide, by decide, by decide, by decide⟩

/-- Teardown of a Context derived from the root itself, on the same heap: the
stash is exactly what it was before the derived Context was created, the heap
is not destroyed and the root's stack depth is unchanged. -/
theorem derived_from_root_teardown_restores_stash :
    worldDerivedFromRootReleased.stash 0 = worldRoot.stash 0 ∧
    worldDerivedFromRootReleased.heapsDestroyed = [false] ∧
    worldDerivedFromRootReleased.wrappers = [(1, none, false, 1), (0, some 0, true, 0)] ∧
    (worldDerivedFromRootReleased.heaps 0).valstack 2 = (worldRoot.heaps 0).valstack 2 := by
  refine ⟨by decide, by decide, by decide, by decide⟩

/-! ## The heap stash under the lifecycle operations -/

@[simp] theorem destroyed_setStack (ctx : Nat) (s : List DukValue) (H : duk_heap) :
    (setStack ctx s H).destroyed = H.destroyed := rfl

@[simp] theorem destroyed_duk_push (ctx : Nat) (v : DukValue) (H : duk_heap) :
    (duk_push ctx v H).destroyed = H.destroyed := rfl

@[simp] theorem destroyed_duk_pop_n (ctx n : Nat) (H : duk_heap) :
    (duk_pop_n ctx n H).destroyed = H.destroyed := rfl

@[simp] theorem destroyed_storeProp (t : Option DukValue) (k v : DukValue) (H : duk_heap) :
    (storeProp t k v H).destroyed = H.destroyed := by
  unfold storeProp
  split
  · split <;> rfl
  · rfl

@[simp] theorem valstack_removeProp (t : Option DukValue) (k : DukValue) (H : duk_heap) :
    (removeProp t k H).valstack = H.valstack := by
  unfold removeProp
  split
  · split <;> rfl
  · rfl

@[simp] theorem destroyed_removeProp (t : Option DukValue) (k : DukValue) (H : duk_heap) :
    (removeProp t k H).destroyed = H.destroyed := by
  unfold removeProp
  split
  · split <;> rfl
  · rfl

theorem stashOf_congr (H1 H2 : duk_heap) (h : H1.objs = H2.objs) : stashOf H1 = stashOf H2 := by
  unfold stashOf
  rw [h]

theorem objs_storeProp_congr (t : Option DukValue) (k v : DukValue) (H1 H2 : duk_heap)
    (h : H1.objs = H2.objs) : (storeProp t k v H1).objs = (storeProp t k v H2).objs := by
  unfold storeProp
  split
  · rw [h]
    split <;> simp [h]
  · exact h

theorem objs_removeProp_congr (t : Option DukValue) (k : DukValue) (H1 H2 : duk_heap)
    (h : H1.objs = H2.objs) : (removeProp t k H1).objs = (removeProp t k H2).objs := by
  unfold removeProp
  split
  · rw [h]
    split <;> simp [h]
  · exact h

/-- Storing into the stash: its properties are updated, nothing else moves. -/
theorem storeProp_stash (k v : DukValue) (H : duk_heap) (st : List (DukValue × DukValue))
    (h : stashOf H = some st) :
    stashOf (storeProp (some (.object 0)) k v H) = some (propSet k v st) ∧
    (storeProp (some (.object 0)) k v H).objs.length = H.objs.length := by
  unfold stashOf at h
  cases ho : H.objs[0]? with
  | none => rw [ho] at h; cases h
  | some o =>
    rw [ho] at h
    simp only [Option.map_some', Option.some.injEq] at h
    subst h
    cases hl : H.objs with
    | nil => rw [hl] at ho; cases ho
    | cons o1 rest =>
      rw [hl] at ho
      simp only [List.getElem?_cons_zero, Option.some.injEq] at ho
      subst ho
      unfold storeProp stashOf
      simp [hl]

/-- Deleting from the stash. -/
theorem removeProp_stash (k : DukValue) (H : duk_heap) (st : List (DukValue × DukValue))
    (h : stashOf H = some st) :
    stashOf (removeProp (some (.object 0)) k H) = some (propDel k st) ∧
    (removeProp (some (.object 0)) k H).objs.length = H.objs.length := by
  unfold stashOf at h
  cases ho : H.objs[0]? with
  | none => rw [ho] at h; cases h
  | some o =>
    rw [ho] at h
    simp only [Option.map_some', Option.some.injEq] at h
    subst h
    cases hl : H.objs with
    | nil => rw [hl] at ho; cases ho
    | cons o1 rest =>
      rw [hl] at ho
      simp only [List.getElem?_cons_zero, Option.some.injEq] at ho
      subst ho
      unfold removeProp stashOf
      simp [hl]

@[simp] theorem objs_duk_push_global_object (ctx : Nat) (H : duk_heap) :
    (duk_push_global_object ctx H).objs = H.objs := by
  unfold duk_push_global_object
  split <;> rfl

@[simp] theorem destroyed_duk_push_global_object (ctx : Nat) (H : duk_heap) :
    (duk_push_global_object ctx H).destroyed = H.destroyed := by
  unfold duk_push_global_object
  split <;> rfl

theorem put_prop_on_stash (ctx : Nat) (H : duk_heap) (s : List DukValue) (k v : DukValue)
    (h : H.valstack ctx = s ++ [.object 0, k, v]) :
    duk_put_prop ctx (-3) H = duk_pop_n ctx 2 (storeProp (some (.object 0)) k v H) := by
  unfold duk_put_prop
  simp only []
  rw [get_tval_neg3 ctx H s (.object 0) k v h,
    get_tval_neg2 ctx H (s ++ [.object 0]) k v (by rw [h]; simp),
    get_tval_neg1 ctx H (s ++ [.object 0, k]) v (by rw [h]; simp)]
  rfl

theorem del_prop_on_stash (ctx : Nat) (H : duk_heap) (s : List DukValue) (k : DukValue)
    (h : H.valstack ctx = s ++ [.object 0, k]) :
    duk_del_prop ctx (-2) H = duk_pop_n ctx 1 (removeProp (some (.object 0)) k H) := by
  unfold duk_del_prop
  simp only []
  rw [get_tval_neg2 ctx H s (.object 0) k h,
    get_tval_neg1 ctx H (s ++ [.object 0]) k (by rw [h]; simp)]
  rfl

theorem get_prop_on_stash (ctx : Nat) (H : duk_heap) (s : List DukValue) (k : DukValue)
    (h : H.valstack ctx = s ++ [.object 0, k]) :
    duk_get_prop ctx (-2) H =
      duk_push ctx (loadProp (some (.object 0)) k H) (duk_pop_n ctx 1 H) := by
  unfold duk_get_prop
  simp only []
  rw [get_tval_neg2 ctx H s (.object 0) k h,
    get_tval_neg1 ctx H (s ++ [.object 0]) k (by rw [h]; simp)]
  rfl

theorem objs_init_internal_heap (self ctx : Nat) (H : duk_heap) :
    (init_internal_heap self ctx H).objs =
      (storeProp (some (.object 0)) (.pointer (.thread ctx)) (.pointer (.context self)) H).objs := by
  have hs : (duk_push_pointer ctx (.context self) (duk_push_pointer ctx (.thread ctx)
      (duk_push_heap_stash ctx H))).valstack ctx =
      H.valstack ctx ++ [.object 0, .pointer (.thread ctx), .pointer (.context self)] := by
    simp [duk_push_pointer, duk_push_heap_stash]
  unfold init_internal_heap
  simp only [duk_pop, objs_duk_pop_n, objs_duk_push_global_object]
  rw [put_prop_on_stash ctx _ _ _ _ hs]
  simp only [objs_duk_pop_n]
  exact objs_storeProp_congr _ _ _ _ _ rfl

theorem destroyed_init_internal_heap (self ctx : Nat) (H : duk_heap) :
    (init_internal_heap self ctx H).destroyed = H.destroyed := by
  unfold init_internal_heap
  simp [duk_pop, duk_put_prop, duk_push_pointer, duk_push_heap_stash]

/-- `DukContext_init_internal` registers `handle ↦ wrapper` in the stash. -/
theorem stash_init_internal_heap (self ctx : Nat) (H : duk_heap)
    (st : List (DukValue × DukValue)) (h : stashOf H = some st) :
    stashOf (init_internal_heap self ctx H) =
      some (propSet (.pointer (.thread ctx)) (.pointer (.context self)) st) ∧
    (init_internal_heap self ctx H).objs.length = H.objs.length := by
  obtain ⟨h1, h2⟩ := storeProp_stash (.pointer (.thread ctx)) (.pointer (.context self)) H st h
  constructor
  · rw [stashOf_congr _ _ (objs_init_internal_heap self ctx H)]
    exact h1
  · rw [objs_init_internal_heap]
    exact h2

theorem objs_dealloc_heap (self self_ctx ctx : Nat) (H : duk_heap) :
    (dealloc_heap self self_ctx ctx H).objs =
      (removeProp (some (.object 0)) (.pointer (.context self))
        (removeProp (some (.object 0)) (.pointer (.thread self_ctx)) H)).objs := by
  have hs2 : (duk_push_pointer ctx (.thread self_ctx) (duk_push_heap_stash ctx H)).valstack ctx =
      H.valstack ctx ++ [.object 0, .pointer (.thread self_ctx)] := by
    simp [duk_push_pointer, duk_push_heap_stash]
  have e3 := del_prop_on_stash ctx _ _ _ hs2
  have hs4 : (duk_push_pointer ctx (.context self) (duk_del_prop ctx (-2)
      (duk_push_pointer ctx (.thread self_ctx) (duk_push_heap_stash ctx H)))).valstack ctx =
      H.valstack ctx ++ [.object 0, .pointer (.context self)] := by
    rw [e3]
    simp [duk_push_pointer, duk_push_heap_stash]
  have e5 := del_prop_on_stash ctx _ _ _ hs4
  unfold dealloc_heap
  simp only [duk_pop, objs_duk_pop_n]
  rw [e5]
  simp only [objs_duk_pop_n]
  apply objs_removeProp_congr
  show (duk_del_prop ctx (-2)
      (duk_push_pointer ctx (.thread self_ctx) (duk_push_heap_stash ctx H))).objs = _
  rw [e3]
  simp only [objs_duk_pop_n]
  exact objs_removeProp_congr _ _ _ _ rfl

theorem destroyed_dealloc_heap (self self_ctx ctx : Nat) (H : duk_heap) :
    (dealloc_heap self self_ctx ctx H).destroyed = H.destroyed := by
  unfold dealloc_heap
  simp [duk_pop, duk_del_prop, duk_push_pointer, duk_push_heap_stash]

/-- The derived branch of `DukContext_dealloc` deletes both entries of the
Context from the stash. -/
theorem stash_dealloc_heap (self self_ctx ctx : Nat) (H : duk_heap)
    (st : List (DukValue × DukValue)) (h : stashOf H = some st) :
    stashOf (dealloc_heap self self_ctx ctx H) =
      some (propDel (.pointer (.context self)) (propDel (.pointer (.thread self_ctx)) st)) ∧
    (dealloc_heap self self_ctx ctx H).objs.length = H.objs.length := by
  obtain ⟨h1, h2⟩ := removeProp_stash (.pointer (.thread self_ctx)) H st h
  obtain ⟨h3, h4⟩ := removeProp_stash (.pointer (.context self)) _ _ h1
  constructor
  · rw [stashOf_congr _ _ (objs_dealloc_heap self self_ctx ctx H)]
    exact h3
  · rw [objs_dealloc_heap, h4, h2]

/-! ## Association lists -/

theorem propGet_propSet_same (k v : DukValue) (l : List (DukValue × DukValue)) :
    propGet k (propSet k v l) = some v := by
  induction l with
  | nil => simp [propSet, propGet]
  | cons p rest ih =>
    obtain ⟨k1, v1⟩ := p
    by_cases h : k1 = k
    · simp [propSet, propGet, h]
    · simp [propSet, propGet, h, ih]

theorem propGet_propSet_ne (k k1 v : DukValue) (l : List (DukValue × DukValue)) (h : k1 ≠ k) :
    propGet k1 (propSet k v l) = propGet k1 l := by
  induction l with
  | nil => simp [propSet, propGet, Ne.symm h]
  | cons p rest ih =>
    obtain ⟨k2, v2⟩ := p
    by_cases h2 : k2 = k
    · subst h2
      simp [propSet, propGet, Ne.symm h]
    · by_cases h3 : k2 = k1
      · subst h3
        simp [propSet, propGet, h2]
      · simp [propSet, propGet, h2, h3, ih]

theorem propGet_propDel_same (k : DukValue) (l : List (DukValue × DukValue)) :
    propGet k (propDel k l) = none := by
  induction l with
  | nil => simp [propDel, propGet]
  | cons p rest ih =>
    obtain ⟨k1, v1⟩ := p
    by_cases h : k1 = k
    · simp [propDel, h, ih]
    · simp [propDel, propGet, h, ih]

theorem propGet_propDel_ne (k k1 : DukValue) (l : List (DukValue × DukValue)) (h : k1 ≠ k) :
    propGet k1 (propDel k l) = propGet k1 l := by
  induction l with
  | nil => simp [propDel, propGet]
  | cons p rest ih =>
    obtain ⟨k2, v2⟩ := p
    by_cases h2 : k2 = k
    · subst h2
      simp [propDel, propGet, Ne.symm h, ih]
    · by_cases h3 : k2 = k1
      · subst h3
        simp [propDel, propGet, h2]
      · simp [propDel, propGet, h2, h3, ih]

theorem propGet_propDel_none (k k1 : DukValue) (l : List (DukValue × DukValue))
    (h : propGet k1 l = none) : propGet k1 (propDel k l) = none := by
  by_cases hk : k1 = k
  · subst hk
    exact propGet_propDel_same _ _
  · rw [propGet_propDel_ne _ _ _ hk]
    exact h

/-! ## `DukContext_new_global_env` and `DukContext_init` on the heap -/

theorem stashOf_append (H : duk_heap) (extra : List HObject) (st : List (DukValue × DukValue))
    (h : stashOf H = some st) (H1 : duk_heap) (h1 : H1.objs = H.objs ++ extra) :
    stashOf H1 = some st := by
  unfold stashOf at h ⊢
  rw [h1]
  cases hl : H.objs with
  | nil => rw [hl] at h; cases h
  | cons o rest =>
    rw [hl] at h
    simpa using h

theorem new_global_env_push_thread (n ctx : Nat) (H : duk_heap) (hctx : ctx < H.objs.length) :
    (duk_push_thread_new_globalenv ctx
        (duk_push_pointer ctx (.context n) (duk_push_heap_stash ctx H))).valstack ctx =
      H.valstack ctx ++ [.object 0, .pointer (.context n), .object (H.objs.length + 1)] ∧
    (duk_push_thread_new_globalenv ctx
        (duk_push_pointer ctx (.context n) (duk_push_heap_stash ctx H))).objs =
      H.objs ++ [⟨.plain, []⟩, ⟨.thread H.objs.length, []⟩] ∧
    (duk_push_thread_new_globalenv ctx
        (duk_push_pointer ctx (.context n) (duk_push_heap_stash ctx H))).destroyed =
      H.destroyed := by
  have hne : ctx ≠ H.objs.length + 1 := by omega
  refine ⟨?_, rfl, rfl⟩
  unfold duk_push_thread_new_globalenv
  simp only [valstack_duk_push, objs_duk_push, duk_push_pointer, duk_push_heap_stash]
  rw [valstack_setStack_other _ _ _ _ hne]
  simp [duk_push, setStack]

theorem new_global_env_handle_eq (n ctx : Nat) (H : duk_heap) (hctx : ctx < H.objs.length) :
    new_global_env_handle n ctx H = H.objs.length + 1 := by
  obtain ⟨hs, _, _⟩ := new_global_env_push_thread n ctx H hctx
  unfold new_global_env_handle duk_get_context
  simp only []
  rw [get_tval_neg1 ctx _ (H.valstack ctx ++ [.object 0, .pointer (.context n)])
    (.object (H.objs.length + 1)) (by rw [hs]; simp)]

/-- `DukContext_new_global_env` allocates two heap objects and registers
`wrapper ↦ thread` in the stash. -/
theorem stash_new_global_env_heap (n ctx : Nat) (H : duk_heap)
    (st : List (DukValue × DukValue)) (h : stashOf H = some st)
    (hctx : ctx < H.objs.length) :
    stashOf (new_global_env_heap n ctx H) =
      some (propSet (.pointer (.context n)) (.object (H.objs.length + 1)) st) ∧
    (new_global_env_heap n ctx H).objs.length = H.objs.length + 2 ∧
    (new_global_env_heap n ctx H).destroyed = H.destroyed := by
  obtain ⟨hs, ho, hd⟩ := new_global_env_push_thread n ctx H hctx
  have hst := stashOf_append H _ st h _ ho
  obtain ⟨h1, h2⟩ := storeProp_stash (.pointer (.context n)) (.object (H.objs.length + 1)) _ st hst
  have e : new_global_env_heap n ctx H = duk_pop ctx (duk_pop_n ctx 2
      (storeProp (some (.object 0)) (.pointer (.context n)) (.object (H.objs.length + 1))
        (duk_push_thread_new_globalenv ctx
          (duk_push_pointer ctx (.context n) (duk_push_heap_stash ctx H))))) := by
    unfold new_global_env_heap
    simp only []
    rw [put_prop_on_stash ctx _ _ _ _ hs]
  rw [e]
  refine ⟨?_, ?_, ?_⟩
  · rw [stashOf_congr (duk_pop ctx (duk_pop_n ctx 2 _)) _ rfl]
    exact h1
  · simp only [duk_pop, objs_duk_pop_n]
    rw [h2, ho]
    simp
  · simp only [duk_pop, destroyed_duk_pop_n, destroyed_storeProp]
    exact hd

theorem init_heap_facts (self : Nat) :
    stashOf (init_heap self) = some [(.string heap_key, .pointer (.context self))] ∧
    (init_heap self).objs.length = 3 ∧ (init_heap self).destroyed = false := by
  refine ⟨rfl, rfl, rfl⟩

/-! ## `DukContext_get` -/

theorem setStack_eq_self (ctx : Nat) (s : List DukValue) (H : duk_heap)
    (h : s = H.valstack ctx) : setStack ctx s H = H := by
  subst h
  exact setStack_self ctx H

theorem loadProp_stash (k : DukValue) (H : duk_heap) :
    loadProp (some (.object 0)) k H =
      match stashOf H with
      | some st => (propGet k st).getD .undefined
      | none => .undefined := by
  unfold loadProp stashOf
  simp only []
  cases H.objs[0]? <;> rfl

/-- `DukContext_get` returns what the stash holds for the handle, NULL when it
holds no pointer there, and gives back the heap it was given. -/
theorem DukContext_get_eq (ctx : Nat) (H : duk_heap) :
    DukContext_get ctx H =
      ((match loadProp (some (.object 0)) (.pointer (.thread ctx)) H with
        | .pointer p => p
        | _ => .null), H) := by
  have hs2 : (duk_push_pointer ctx (.thread ctx) (duk_push_heap_stash ctx H)).valstack ctx =
      H.valstack ctx ++ [.object 0, .pointer (.thread ctx)] := by
    simp [duk_push_pointer, duk_push_heap_stash]
  have e3 := get_prop_on_stash ctx _ _ _ hs2
  have hload : loadProp (some (.object 0)) (.pointer (.thread ctx))
      (duk_push_pointer ctx (.thread ctx) (duk_push_heap_stash ctx H)) =
      loadProp (some (.object 0)) (.pointer (.thread ctx)) H := rfl
  unfold DukContext_get
  simp only []
  rw [e3, hload]
  congr 1
  · unfold duk_get_pointer
    rw [duk_get_tval_top]
    cases loadProp (some (.object 0)) (.pointer (.thread ctx)) H <;> rfl
  · unfold duk_pop_n duk_push duk_push_pointer duk_push_heap_stash duk_push
    simp only [setStack_setStack, valstack_setStack_same]
    apply setStack_eq_self
    simp

/-! ## The lifecycle invariant -/

theorem WorldInv_empty : WorldInv (fun _ => False) World.empty :=
  { heap_lt := fun a h => absurd h (Nat.not_lt_zero a)
    good := fun a h => absurd h (Nat.not_lt_zero a)
    manager := fun a h => absurd h (Nat.not_lt_zero a) }

/-- A change of reference counts (or of another field outside the handle, the
freed flag and the manager) keeps the invariant. -/
theorem WorldInv_onObject (pend : Nat → Prop) (W : World) (p : Nat)
    (f : DukContext → DukContext)
    (hctx : ∀ o, (f o).ctx = o.ctx) (hfreed : ∀ o, (f o).freed = o.freed)
    (hmgr : ∀ o, (f o).heap_manager = o.heap_manager)
    (hW : WorldInv pend W) : WorldInv pend (W.onObject p f) := by
  have hobj : ∀ a, ((W.onObject p f).objects a).ctx = (W.objects a).ctx ∧
      ((W.onObject p f).objects a).freed = (W.objects a).freed ∧
      ((W.onObject p f).objects a).heap_manager = (W.objects a).heap_manager := by
    intro a
    unfold World.onObject
    by_cases h : a = p
    · simp [h, hctx, hfreed, hmgr]
    · simp [h]
  have hheaps : (W.onObject p f).heaps = W.heaps := rfl
  have hn : (W.onObject p f).nobjects = W.nobjects := rfl
  have hh : (W.onObject p f).nheaps = W.nheaps := rfl
  refine ⟨?_, ?_, ?_⟩
  · intro a ha
    rw [(hobj a).1, hh]
    exact hW.heap_lt a ha
  · intro a ha
    have := hW.good a ha
    unfold GoodWrapper at this ⊢
    rw [(hobj a).1, (hobj a).2.1, hheaps]
    exact this
  · intro a ha m hm
    rw [(hobj a).2.2] at hm
    obtain ⟨h1, h2, h3⟩ := hW.manager a ha m hm
    rw [(hobj a).1, (hobj m).1, (hobj m).2.2]
    exact ⟨h1, h2, h3⟩

/-- Destroying the heap of a wrapper and marking the wrapper freed keeps the
invariant: nothing is claimed about a destroyed heap. -/
theorem WorldInv_destroy (pend : Nat → Prop) (W : World) (p : Nat) (hW : WorldInv pend W) :
    WorldInv pend ((W.onHeap (W.objects p).ctx.heap duk_destroy_heap).onObject p
      (fun o1 => { o1 with freed := true })) := by
  have hobj : ∀ a, (((W.onHeap (W.objects p).ctx.heap duk_destroy_heap).onObject p
      (fun o1 => { o1 with freed := true })).objects a).ctx = (W.objects a).ctx ∧
      (((W.onHeap (W.objects p).ctx.heap duk_destroy_heap).onObject p
      (fun o1 => { o1 with freed := true })).objects a).heap_manager =
        (W.objects a).heap_manager ∧
      (a ≠ p → (((W.onHeap (W.objects p).ctx.heap duk_destroy_heap).onObject p
      (fun o1 => { o1 with freed := true })).objects a).freed = (W.objects a).freed) := by
    intro a
    unfold World.onObject World.onHeap
    by_cases h : a = p
    · simp [h]
    · simp [h]
  have hheaps : ∀ i, ((W.onHeap (W.objects p).ctx.heap duk_destroy_heap).onObject p
      (fun o1 => { o1 with freed := true })).heaps i =
      if i = (W.objects p).ctx.heap then duk_destroy_heap (W.heaps i) else W.heaps i := by
    intro i
    rfl
  refine ⟨?_, ?_, ?_⟩
  · intro a ha
    rw [(hobj a).1]
    exact hW.heap_lt a ha
  · intro a ha
    have := hW.good a ha
    unfold GoodWrapper at this ⊢
    rw [(hobj a).1, hheaps]
    by_cases hh : (W.objects a).ctx.heap = (W.objects p).ctx.heap
    · rw [if_pos hh]
      intro hd
      exact absurd hd (by simp [duk_destroy_heap])
    · rw [if_neg hh]
      have hap : a ≠ p := by
        intro e
        rw [e] at hh
        exact hh rfl
      rw [(hobj a).2.2 hap]
      exact this
  · intro a ha m hm
    rw [(hobj a).2.1] at hm
    obtain ⟨h1, h2, h3⟩ := hW.manager a ha m hm
    rw [(hobj a).1, (hobj m).1, (hobj m).2.1]
    exact ⟨h1, h2, h3⟩

theorem ptr_thread_ne_context (t a : Nat) :
    DukValue.pointer (.thread t) ≠ DukValue.pointer (.context a) := by
  intro h
  injection h with h
  cases h

/-- Deleting the two stash entries of the wrapper at `a` keeps the invariant
with `a` counted as in teardown. -/
theorem WorldInv_delete_entries (pend : Nat → Prop) (W : World) (a t : Nat)
    (hW : WorldInv pend W) (ha : a < W.nobjects) :
    WorldInv (fun b => pend b ∨ b = a)
      (W.onHeap (W.objects a).ctx.heap (dealloc_heap a (W.objects a).ctx.thread t)) := by
  have hobj : (W.onHeap (W.objects a).ctx.heap
      (dealloc_heap a (W.objects a).ctx.thread t)).objects = W.objects := rfl
  have hheaps : ∀ i, (W.onHeap (W.objects a).ctx.heap
      (dealloc_heap a (W.objects a).ctx.thread t)).heaps i =
      if i = (W.objects a).ctx.heap then
        dealloc_heap a (W.objects a).ctx.thread t (W.heaps i) else W.heaps i := by
    intro i
    rfl
  refine ⟨?_, ?_, ?_⟩
  · intro b hb
    exact hW.heap_lt b hb
  · intro b hb
    have hgb := hW.good b hb
    have hga := hW.good a ha
    unfold GoodWrapper at hgb hga ⊢
    rw [hobj, hheaps]
    by_cases hh : (W.objects b).ctx.heap = (W.objects a).ctx.heap
    · rw [if_pos hh]
      intro hd
      rw [destroyed_dealloc_heap] at hd
      obtain ⟨hlt, st, hst, hlive, hdead⟩ := hgb hd
      obtain ⟨h1, h2⟩ := stash_dealloc_heap a (W.objects a).ctx.thread t _ st hst
      rw [hh] at hd hst
      obtain ⟨_, st1, hst1, hlive1, hdead1⟩ := hga hd
      rw [hst] at hst1
      cases hst1
      refine ⟨by rw [h2]; exact hlt, _, h1, ?_, ?_⟩
      · rintro ⟨hf, hp⟩
        have hpb : ¬ pend b := fun h => hp (Or.inl h)
        have hba : b ≠ a := fun h => hp (Or.inr h)
        have hgetb := hlive ⟨hf, hpb⟩
        have hkey : (W.objects b).ctx.thread ≠ (W.objects a).ctx.thread := by
          intro e
          rw [e] at hgetb
          by_cases hfa : (W.objects a).freed = false ∧ ¬ pend a
          · rw [hlive1 hfa] at hgetb
            injection hgetb with hg
            injection hg with hg
            injection hg with hg
            exact hba hg.symm
          · have : (W.objects a).freed = true ∨ pend a := by
              by_cases hx : (W.objects a).freed = true
              · exact Or.inl hx
              · right
                by_contra hp2
                exact hfa ⟨by simpa using hx, hp2⟩
            rw [hdead1 this] at hgetb
            cases hgetb
        rw [propGet_propDel_ne _ _ _ (ptr_thread_ne_context _ _),
          propGet_propDel_ne _ _ _ (by
            intro e
            injection e with e
            injection e with e
            exact hkey e)]
        exact hgetb
      · intro hcase
        by_cases hba : b = a
        · subst hba
          apply propGet_propDel_none
          exact propGet_propDel_same _ _
        · have hcase2 : (W.objects b).freed = true ∨ pend b := by
            rcases hcase with h | h | h
            · exact Or.inl h
            · exact Or.inr h
            · exact absurd h hba
          apply propGet_propDel_none
          apply propGet_propDel_none
          exact hdead hcase2
    · rw [if_neg hh]
      intro hd
      obtain ⟨hlt, st, hst, hlive, hdead⟩ := hgb hd
      have hba : b ≠ a := by
        intro e
        rw [e] at hh
        exact hh rfl
      refine ⟨hlt, st, hst, ?_, ?_⟩
      · rintro ⟨hf, hp⟩
        exact hlive ⟨hf, fun h => hp (Or.inl h)⟩
      · intro hcase
        apply hdead
        rcases hcase with h | h | h
        · exact Or.inl h
        · exact Or.inr h
        · exact absurd h hba
  · intro b hb m hm
    exact hW.manager b hb m hm

/-- Marking the wrapper in teardown as freed ends its teardown. -/
theorem WorldInv_mark_freed (pend : Nat → Prop) (W : World) (a : Nat)
    (hW : WorldInv (fun b => pend b ∨ b = a) W) :
    WorldInv pend (W.onObject a (fun o1 => { o1 with freed := true })) := by
  have hobj : ∀ b, ((W.onObject a (fun o1 => { o1 with freed := true })).objects b).ctx =
        (W.objects b).ctx ∧
      ((W.onObject a (fun o1 => { o1 with freed := true })).objects b).heap_manager =
        (W.objects b).heap_manager ∧
      (b ≠ a → ((W.onObject a (fun o1 => { o1 with freed := true })).objects b).freed =
        (W.objects b).freed) ∧
      (b = a → ((W.onObject a (fun o1 => { o1 with freed := true })).objects b).freed = true) := by
    intro b
    unfold World.onObject
    by_cases h : b = a
    · simp [h]
    · simp [h]
  have hheaps : (W.onObject a (fun o1 => { o1 with freed := true })).heaps = W.heaps := rfl
  refine ⟨?_, ?_, ?_⟩
  · intro b hb
    rw [(hobj b).1]
    exact hW.heap_lt b hb
  · intro b hb
    have hg := hW.good b hb
    unfold GoodWrapper at hg ⊢
    rw [(hobj b).1, hheaps]
    intro hd
    obtain ⟨hlt, st, hst, hlive, hdead⟩ := hg hd
    refine ⟨hlt, st, hst, ?_, ?_⟩
    · rintro ⟨hf, hp⟩
      by_cases hba : b = a
      · rw [(hobj b).2.2.2 hba] at hf
        cases hf
      · rw [(hobj b).2.2.1 hba] at hf
        exact hlive ⟨hf, fun h => h.elim hp hba⟩
    · intro hcase
      by_cases hba : b = a
      · exact hdead (Or.inr (Or.inr hba))
      · rw [(hobj b).2.2.1 hba] at hcase
        rcases hcase with h | h
        · exact hdead (Or.inl h)
        · exact hdead (Or.inr (Or.inl h))
  · intro b hb m hm
    rw [(hobj b).2.1] at hm
    obtain ⟨h1, h2, h3⟩ := hW.manager b hb m hm
    rw [(hobj b).1, (hobj m).1, (hobj m).2.1]
    exact ⟨h1, h2, h3⟩

/-- `Py_DECREF` and `DukContext_dealloc` keep the invariant, whatever the
nesting bound. -/
theorem teardown_keeps_inv : ∀ fuel : Nat,
    (∀ (pend : Nat → Prop) (W : World) (p : Nat), WorldInv pend W → p < W.nobjects →
      WorldInv pend (Py_DECREF fuel p W) ∧ (Py_DECREF fuel p W).nobjects = W.nobjects) ∧
    (∀ (pend : Nat → Prop) (W : World) (p : Nat), WorldInv pend W → p < W.nobjects →
      WorldInv pend (DukContext_dealloc fuel p W) ∧
        (DukContext_dealloc fuel p W).nobjects = W.nobjects) := by
  intro fuel
  induction fuel with
  | zero =>
    constructor
    · intro pend W p hW _
      rw [Py_DECREF]
      exact ⟨hW, rfl⟩
    · intro pend W p hW _
      rw [DukContext_dealloc]
      exact ⟨hW, rfl⟩
  | succ fuel ih =>
    obtain ⟨ihD, ihF⟩ := ih
    constructor
    · intro pend W p hW hp
      rw [Py_DECREF]
      have h1 : WorldInv pend (W.onObject p
          (fun o1 => { o1 with ob_refcnt := (W.objects p).ob_refcnt - 1 })) :=
        WorldInv_onObject pend W p _ (fun _ => rfl) (fun _ => rfl) (fun _ => rfl) hW
      split_ifs
      · exact ihF pend _ p h1 hp
      · exact ⟨h1, rfl⟩
    · intro pend W p hW hp
      rw [DukContext_dealloc]
      cases hm : (W.objects p).heap_manager with
      | none =>
        simp only []
        exact ⟨WorldInv_destroy pend W p hW, rfl⟩
      | some m =>
        simp only []
        obtain ⟨hmlt, hmheap, _⟩ := hW.manager p hp m hm
        rw [hmheap]
        have h1 := WorldInv_delete_entries pend W p (W.objects m).ctx.thread hW hp
        obtain ⟨h2, h2n⟩ := ihD (fun b => pend b ∨ b = p) _ m h1 hmlt
        exact ⟨WorldInv_mark_freed pend _ p h2, h2n⟩

/-! ## The nesting bound of `hostRelease` -/

theorem dealloc_root_fuel (k p : Nat) (W : World)
    (h : (W.objects p).heap_manager = none) :
    DukContext_dealloc (k + 1) p W = DukContext_dealloc 1 p W := by
  rw [DukContext_dealloc, DukContext_dealloc]
  simp only [h]

theorem Py_DECREF_root_fuel (k p : Nat) (W : World)
    (h : (W.objects p).heap_manager = none) :
    Py_DECREF (k + 2) p W = Py_DECREF 2 p W := by
  rw [Py_DECREF, Py_DECREF]
  have h1 : ((W.onObject p
      (fun o1 => { o1 with ob_refcnt := (W.objects p).ob_refcnt - 1 })).objects p).heap_manager
      = none := by
    simp [World.onObject, h]
  rw [dealloc_root_fuel k p _ h1]

/-- When heap managers are roots, teardown nests at most two deep: the bound 4
of `hostRelease` never cuts a deallocation short. -/
theorem Py_DECREF_fuel_enough (pend : Nat → Prop) (W : World) (hW : WorldInv pend W)
    (p : Nat) (hp : p < W.nobjects) (k : Nat) :
    Py_DECREF (k + 4) p W = Py_DECREF 4 p W := by
  rw [Py_DECREF, Py_DECREF]
  have hobj : ∀ a, ((W.onObject p
      (fun o1 => { o1 with ob_refcnt := (W.objects p).ob_refcnt - 1 })).objects a).heap_manager
      = (W.objects a).heap_manager := by
    intro a
    unfold World.onObject
    by_cases e : a = p
    · simp [e]
    · simp [e]
  have h3 : DukContext_dealloc (k + 3) p (W.onObject p
        (fun o1 => { o1 with ob_refcnt := (W.objects p).ob_refcnt - 1 })) =
      DukContext_dealloc 3 p (W.onObject p
        (fun o1 => { o1 with ob_refcnt := (W.objects p).ob_refcnt - 1 })) := by
    rw [DukContext_dealloc, DukContext_dealloc]
    cases hm : ((W.onObject p
        (fun o1 => { o1 with ob_refcnt := (W.objects p).ob_refcnt - 1 })).objects p).heap_manager with
    | none => rfl
    | some m =>
      simp only []
      have hroot : (W.objects m).heap_manager = none := by
        rw [hobj p] at hm
        exact (hW.manager p hp m hm).2.2
      congr 1
      exact Py_DECREF_root_fuel k m _ ((hobj m).trans hroot)
  rw [h3]

/-! ## Creating Contexts -/

theorem createContext_shape (W : World) :
    (createContext W).nobjects = W.nobjects + 1 ∧
    (createContext W).nheaps = W.nheaps + 1 ∧
    (∀ a, a ≠ W.nobjects → (createContext W).objects a = W.objects a) ∧
    ((createContext W).objects W.nobjects).ctx = ⟨W.nheaps, 2⟩ ∧
    ((createContext W).objects W.nobjects).freed = false ∧
    ((createContext W).objects W.nobjects).heap_manager = none ∧
    (∀ i, i ≠ W.nheaps → (createContext W).heaps i = W.heaps i) ∧
    (createContext W).heaps W.nheaps = init_internal_heap W.nobjects 2 (init_heap W.nobjects) := by
  refine ⟨rfl, rfl, ?_, ?_, ?_, ?_, ?_, ?_⟩
  · intro a ha
    simp [createContext, DukContext_init, DukContext_init_internal, World.onHeap,
      World.onObject, World.allocContext, ha]
  · simp [createContext, DukContext_init, DukContext_init_internal, World.onHeap,
      World.onObject, World.allocContext]
  · simp [createContext, DukContext_init, DukContext_init_internal, World.onHeap,
      World.onObject, World.allocContext, PyObject_New]
  · simp [createContext, DukContext_init, DukContext_init_internal, World.onHeap,
      World.onObject, World.allocContext]
  · intro i hi
    simp [createContext, DukContext_init, DukContext_init_internal, World.onHeap,
      World.onObject, World.allocContext, hi]
  · simp [createContext, DukContext_init, DukContext_init_internal, World.onHeap,
      World.onObject, World.allocContext]

theorem WorldInv_createContext (W : World) (hW : WorldInv (fun _ => False) W) :
    WorldInv (fun _ => False) (createContext W) := by
  obtain ⟨hn, hh, hold, hctx, hfreed, hmgr, hheaps, hnew⟩ := createContext_shape W
  obtain ⟨hst0, hlen0, hd0⟩ := init_heap_facts W.nobjects
  obtain ⟨hst1, hlen1⟩ := stash_init_internal_heap W.nobjects 2 _ _ hst0
  refine ⟨?_, ?_, ?_⟩
  · intro a ha
    rw [hh]
    by_cases e : a = W.nobjects
    · subst e
      rw [hctx]
      exact Nat.lt_succ_self _
    · rw [hold a e]
      have := hW.heap_lt a (by omega)
      omega
  · intro a ha
    unfold GoodWrapper
    by_cases e : a = W.nobjects
    · subst e
      rw [hctx, hfreed]
      simp only []
      rw [hnew]
      intro _
      refine ⟨by rw [hlen1, hlen0]; decide, _, hst1, ?_, ?_⟩
      · intro _
        exact propGet_propSet_same _ _ _
      · intro h
        rcases h with h | h
        · cases h
        · exact absurd h id
    · rw [hold a e]
      have hlt := hW.heap_lt a (by omega)
      rw [hheaps _ (by omega)]
      exact hW.good a (by omega)
  · intro a ha m hm
    by_cases e : a = W.nobjects
    · subst e
      rw [hmgr] at hm
      cases hm
    · rw [hold a e] at hm ⊢
      obtain ⟨h1, h2, h3⟩ := hW.manager a (by omega) m hm
      rw [hold m (by omega)]
      exact ⟨by omega, h2, h3⟩

theorem destroyed_new_global_env_heap (n ctx : Nat) (H : duk_heap) :
    (new_global_env_heap n ctx H).destroyed = H.destroyed := by
  unfold new_global_env_heap
  simp [duk_pop, duk_put_prop, duk_push_thread_new_globalenv, duk_push_pointer,
    duk_push_heap_stash]

theorem new_global_env_shape (self : Nat) (W : World) (hself : self < W.nobjects) :
    (DukContext_new_global_env self W).nobjects = W.nobjects + 1 ∧
    (DukContext_new_global_env self W).nheaps = W.nheaps ∧
    (∀ a, a ≠ W.nobjects →
      ((DukContext_new_global_env self W).objects a).ctx = (W.objects a).ctx ∧
      ((DukContext_new_global_env self W).objects a).freed = (W.objects a).freed ∧
      ((DukContext_new_global_env self W).objects a).heap_manager =
        (W.objects a).heap_manager) ∧
    ((DukContext_new_global_env self W).objects W.nobjects).ctx =
      ⟨(W.objects self).ctx.heap,
        new_global_env_handle W.nobjects (W.objects self).ctx.thread
          (W.heaps (W.objects self).ctx.heap)⟩ ∧
    ((DukContext_new_global_env self W).objects W.nobjects).freed = false ∧
    ((DukContext_new_global_env self W).objects W.nobjects).heap_manager =
      some ((W.objects self).heap_manager.getD self) ∧
    (∀ i, i ≠ (W.objects self).ctx.heap →
      (DukContext_new_global_env self W).heaps i = W.heaps i) ∧
    (DukContext_new_global_env self W).heaps (W.objects self).ctx.heap =
      init_internal_heap W.nobjects
        (new_global_env_handle W.nobjects (W.objects self).ctx.thread
          (W.heaps (W.objects self).ctx.heap))
        (new_global_env_heap W.nobjects (W.objects self).ctx.thread
          (W.heaps (W.objects self).ctx.heap)) := by
  have hne : self ≠ W.nobjects := by omega
  refine ⟨rfl, rfl, ?_, ?_, ?_, ?_, ?_, ?_⟩
  · intro a ha
    by_cases e : a = self
    · subst e
      simp [DukContext_new_global_env, DukContext_init_internal, World.onHeap,
        World.onObject, World.allocContext, Py_INCREF, ha]
    · simp [DukContext_new_global_env, DukContext_init_internal, World.onHeap,
        World.onObject, World.allocContext, Py_INCREF, ha, e]
  · simp [DukContext_new_global_env, DukContext_init_internal, World.onHeap,
      World.onObject, World.allocContext, Py_INCREF, hne.symm]
  · simp [DukContext_new_global_env, DukContext_init_internal, World.onHeap,
      World.onObject, World.allocContext, Py_INCREF, hne.symm, PyObject_New]
  · simp [DukContext_new_global_env, DukContext_init_internal, World.onHeap,
      World.onObject, World.allocContext, Py_INCREF, hne.symm]
  · intro i hi
    simp [DukContext_new_global_env, DukContext_init_internal, World.onHeap,
      World.onObject, World.allocContext, Py_INCREF, hne.symm, hi]
  · simp [DukContext_new_global_env, DukContext_init_internal, World.onHeap,
      World.onObject, World.allocContext, Py_INCREF, hne.symm]

theorem WorldInv_new_global_env (self : Nat) (W : World) (hself : self < W.nobjects)
    (hW : WorldInv (fun _ => False) W) :
    WorldInv (fun _ => False) (DukContext_new_global_env self W) := by
  obtain ⟨hn, hh, hold, hctx, hfreed, hmgr, hheaps, hnew⟩ := new_global_env_shape self W hself
  refine ⟨?_, ?_, ?_⟩
  · intro a ha
    rw [hh]
    by_cases e : a = W.nobjects
    · subst e
      rw [hctx]
      exact hW.heap_lt self hself
    · rw [(hold a e).1]
      exact hW.heap_lt a (by omega)
  · intro a ha
    have hgs := hW.good self hself
    unfold GoodWrapper at hgs ⊢
    by_cases hd : (W.heaps (W.objects self).ctx.heap).destroyed = false
    · obtain ⟨hslt, st, hst, _, _⟩ := hgs hd
      have hhandle := new_global_env_handle_eq W.nobjects _ _ hslt
      obtain ⟨hst1, hlen1, _⟩ := stash_new_global_env_heap W.nobjects _ _ st hst hslt
      obtain ⟨hst2, hlen2⟩ := stash_init_internal_heap W.nobjects
        (new_global_env_handle W.nobjects (W.objects self).ctx.thread
          (W.heaps (W.objects self).ctx.heap)) _ _ hst1
      by_cases e : a = W.nobjects
      · subst e
        rw [hctx, hfreed]
        simp only []
        rw [hnew]
        intro _
        refine ⟨by rw [hlen2, hlen1, hhandle]; omega, _, hst2, ?_, ?_⟩
        · intro _
          exact propGet_propSet_same _ _ _
        · intro h
          rcases h with h | h
          · cases h
          · exact absurd h id
      · rw [(hold a e).1, (hold a e).2.1]
        by_cases hheap : (W.objects a).ctx.heap = (W.objects self).ctx.heap
        · rw [hheap, hnew]
          intro _
          have hga := hW.good a (by omega)
          unfold GoodWrapper at hga
          rw [hheap] at hga
          obtain ⟨halt, st', hst', hlive, hdead⟩ := hga hd
          rw [hst] at hst'
          cases hst'
          have hkey : propGet (.pointer (.thread (W.objects a).ctx.thread))
              (propSet (.pointer (.thread (new_global_env_handle W.nobjects
                  (W.objects self).ctx.thread (W.heaps (W.objects self).ctx.heap))))
                (.pointer (.context W.nobjects))
                (propSet (.pointer (.context W.nobjects))
                  (.object ((W.heaps (W.objects self).ctx.heap).objs.length + 1)) st)) =
              propGet (.pointer (.thread (W.objects a).ctx.thread)) st := by
            rw [propGet_propSet_ne _ _ _ _ (by
                intro e2
                injection e2 with e2
                injection e2 with e2
                rw [hhandle] at e2
                omega),
              propGet_propSet_ne _ _ _ _ (ptr_thread_ne_context _ _)]
          refine ⟨by rw [hlen2, hlen1]; omega, _, hst2, ?_, ?_⟩
          · intro h
            rw [hkey]
            exact hlive h
          · intro h
            rw [hkey]
            exact hdead h
        · rw [hheaps _ hheap]
          exact hW.good a (by omega)
    · by_cases e : a = W.nobjects
      · subst e
        rw [hctx]
        simp only []
        rw [hnew, destroyed_init_internal_heap, destroyed_new_global_env_heap]
        intro h
        exact absurd h hd
      · rw [(hold a e).1, (hold a e).2.1]
        by_cases hheap : (W.objects a).ctx.heap = (W.objects self).ctx.heap
        · rw [hheap, hnew, destroyed_init_internal_heap, destroyed_new_global_env_heap]
          intro h
          exact absurd h hd
        · rw [hheaps _ hheap]
          exact hW.good a (by omega)
  · intro a ha m hm
    by_cases e : a = W.nobjects
    · subst e
      rw [hmgr] at hm
      injection hm with hm
      rw [hctx]
      simp only []
      cases hsm : (W.objects self).heap_manager with
      | none =>
        rw [hsm] at hm
        simp only [Option.getD_none] at hm
        subst hm
        have hs := hold self (by omega)
        rw [hs.1, hs.2.2]
        exact ⟨by omega, rfl, hsm⟩
      | some m0 =>
        rw [hsm] at hm
        simp only [Option.getD_some] at hm
        subst hm
        obtain ⟨h1, h2, h3⟩ := hW.manager self hself m0 hsm
        have hs := hold m0 (by omega)
        rw [hs.1, hs.2.2]
        exact ⟨by omega, h2, h3⟩
    · rw [(hold a e).2.2] at hm
      obtain ⟨h1, h2, h3⟩ := hW.manager a (by omega) m hm
      have hs := hold m (by omega)
      rw [(hold a e).1, hs.1, hs.2.2]
      exact ⟨by omega, h2, h3⟩

theorem WorldInv_hostRelease (a : Nat) (W : World) (ha : a < W.nobjects)
    (hW : WorldInv (fun _ => False) W) : WorldInv (fun _ => False) (hostRelease a W) := by
  unfold hostRelease
  simp only []
  split_ifs
  · exact hW
  · exact ((teardown_keeps_inv 4).1 _ _ a
      (WorldInv_onObject _ W a
        (fun o1 => { o1 with hostRefs := (W.objects a).hostRefs - 1 })
        (fun _ => rfl) (fun _ => rfl) (fun _ => rfl) hW) ha).1

/-- Every reachable world satisfies the lifecycle invariant. -/
theorem Reachable_inv (W : World) (h : Reachable W) : WorldInv (fun _ => False) W := by
  induction h with
  | empty => exact WorldInv_empty
  | create W _ ih => exact WorldInv_createContext W ih
  | derive W a _ ha ih => exact WorldInv_new_global_env a W ha ih
  | release W a _ ha ih => exact WorldInv_hostRelease a W ha ih

/-- On a heap that exists, a wrapper that has not been deallocated is found:
in every world reachable by creating root Contexts, deriving Contexts and
dropping references, `DukContext_get` on the handle of such a wrapper returns
the wrapper. On any heap, a handle with no stash entry gives NULL, and
`DukContext_get` gives back the heap unchanged, so the stack depth is what it
was. -/
theorem DukContext_get_on_live_heap (W : World) (hW : Reachable W) :
    (∀ a, a < W.nobjects → (W.heaps (W.objects a).ctx.heap).destroyed = false →
      (W.objects a).freed = false →
        W.lookup (W.objects a).ctx = (.context a, W.heaps (W.objects a).ctx.heap)) ∧
    (∀ (H : duk_heap) (ctx : Nat) (st : List (DukValue × DukValue)),
      stashOf H = some st → propGet (.pointer (.thread ctx)) st = none →
      DukContext_get ctx H = (.null, H)) ∧
    (∀ (H : duk_heap) (ctx : Nat),
      (DukContext_get ctx H).2 = H ∧
      duk_get_top ctx (DukContext_get ctx H).2 = duk_get_top ctx H) := by
  have hinv := Reachable_inv W hW
  refine ⟨?_, ?_, ?_⟩
  · intro a ha hd hf
    have hg := hinv.good a ha
    unfold GoodWrapper at hg
    obtain ⟨_, st, hst, hlive, _⟩ := hg hd
    unfold World.lookup
    rw [DukContext_get_eq, loadProp_stash, hst]
    simp only []
    rw [hlive ⟨hf, id⟩]
    rfl
  · intro H ctx st hst hnone
    rw [DukContext_get_eq, loadProp_stash, hst]
    simp only []
    rw [hnone]
    rfl
  · intro H ctx
    rw [DukContext_get_eq]
    exact ⟨rfl, rfl⟩

/-- C8. A Context that has been constructed and not destroyed is not always
found. The world after
`R = Context(); D1 = R.new_global_env(); D2 = D1.new_global_env(); del D2; del R`
is reachable; in it the derived wrapper D1 (address 1) is not deallocated and
is still referenced by the host, but its heap has been destroyed and has no
stash, and `DukContext_get` on D1's handle does not return D1 (the model reads
the emptied heap and reports NULL; the C code reads freed memory). -/
theorem DukContext_get_misses_live_wrapper :
    Reachable worldRootReleased ∧
    (worldRootReleased.objects 1).freed = false ∧
    (worldRootReleased.objects 1).hostRefs = 1 ∧
    (worldRootReleased.objects 1).heap_manager = some 0 ∧
    (worldRootReleased.heaps (worldRootReleased.objects 1).ctx.heap).destroyed = true ∧
    worldRootReleased.stash (worldRootReleased.objects 1).ctx.heap = none ∧
    (worldRootReleased.lookup (worldRootReleased.objects 1).ctx).1 = .null ∧
    (worldRootReleased.lookup (worldRootReleased.objects 1).ctx).1 ≠ .context 1 ∧
    (worldD2.lookup (worldD2.objects 1).ctx).1 = .context 1 := by
  have h : Reachable worldRootReleased :=
    Reachable.release _ 0
      (Reachable.release _ 2
        (Reachable.derive _ 1
          (Reachable.derive _ 0 (Reachable.create _ Reachable.empty) (by decide))
          (by decide))
        (by decide))
      (by decide)
  exact ⟨h, by decide, by decide, by decide, by decide, by decide, by decide, by decide,
    by decide⟩

end DukPy
